import Mathlib

/-!
# GitBell: the reconciliation pass, the store and the issue source

A shallow embedding of `src/storage.js`, `src/github-api.js`, the pass
`checkAllRepositories` and `sendNotification` of `src/background.js`, and the
export document of `src/settings.js`.

Modelling decisions.

* The browser store (`chrome.storage.sync` and `chrome.storage.local`) is the
  record `World`; a key that was never written is `none`, and the getters of
  `storage.js` supply the defaults exactly as the source does with `||`.
  Store reads and writes themselves never fail.
* The outside world is the record `Env`.  Every call the pass makes to the
  outside is identified by its call site: `fetch i k` is the answer to the
  `k`-th HTTP request made while the repository at position `i` of the
  snapshot is processed (`k = 0` inside `getNewIssues`, `k = 1` in the
  branch without new issues), `create i j` says whether
  `chrome.notifications.create` throws for the `j`-th new issue of position
  `i`, and `now` gives the reading of `Date.now()` at each site.
* `World.trace` is instrumentation: it lists, in order, the requests, the
  calls of `sendNotification`, the alerts created, the calls of
  `Storage.addNotification` and the writes of the statistics.
* Issue numbers are natural numbers.  `Math.max` of a spread list yields
  `-Infinity` on the empty list, hence the type `JsNum`.
-/

namespace GitBell

/-! ## JavaScript values used by the watermark arithmetic -/

/-- Numbers that `Math.max` can produce from lists of issue numbers. -/
inductive JsNum where
  | negInf
  | fin (n : Nat)
  deriving DecidableEq, Repr

/-- Truthiness of a number: `0` is falsy, everything else here is truthy. -/
def JsNum.truthy : JsNum → Bool
  | .negInf => true
  | .fin n => n != 0

/-- Binary `Math.max(a, b)`. -/
def mathMax2 : JsNum → JsNum → JsNum
  | .negInf, b => b
  | a, .negInf => a
  | .fin a, .fin b => .fin (Nat.max a b)

/-- Spread form `Math.max(...xs)`; `-Infinity` for the empty list. -/
def mathMax (xs : List Nat) : JsNum :=
  xs.foldl (fun acc n => mathMax2 acc (.fin n)) .negInf

/-- Truthiness of a nullable number (`null` is falsy). -/
def truthy : Option JsNum → Bool
  | none => false
  | some v => v.truthy

/-- The expression `a || b` for a nullable number `a`. -/
def orElse (a b : Option JsNum) : Option JsNum :=
  if truthy a then a else b

/-- The expression `x || 0` for a nullable number `x`. -/
def orZero : Option JsNum → JsNum
  | none => .fin 0
  | some v => if v.truthy then v else .fin 0

/-- The comparison `n > w` as used by the new-issue filter. -/
def numGt (n : Nat) : Option JsNum → Bool
  | none => decide (n > 0)
  | some .negInf => true
  | some (.fin w) => decide (n > w)

/-! ## Data model -/

/-- Status strings of a tracked repository. -/
inductive Status where
  | active
  | checking
  | error
  deriving DecidableEq, Repr

/-- Entry of the stored `repositories` array. -/
structure Repo where
  owner : String
  repo : String
  fullName : String
  addedAt : Nat
  lastChecked : Option Nat
  lastIssueNumber : Option JsNum
  status : Status
  lastError : Option String
  deriving DecidableEq, Repr

/-- Label object of an issue. -/
structure Label where
  name : String
  deriving DecidableEq, Repr

/-- Entry of the array returned by the issues endpoint; `pull_request` is
true when the entry carries a (truthy) `pull_request` field. -/
structure Issue where
  number : Nat
  title : String
  html_url : String
  labels : List Label
  pull_request : Bool
  deriving DecidableEq, Repr

/-- HTTP response of the issues endpoint, as far as `fetchIssues` reads it. -/
structure Response where
  status : Nat
  body : List Issue
  deriving DecidableEq, Repr

/-- The flag `response.ok`. -/
def Response.ok (r : Response) : Bool :=
  decide (200 ≤ r.status) && decide (r.status ≤ 299)

/-- Stored `settings` object. -/
structure Settings where
  checkInterval : Nat
  githubToken : String
  notificationsEnabled : Bool
  soundEnabled : Bool
  theme : String
  deriving DecidableEq, Repr

/-- Stored `stats` object. -/
structure Stats where
  totalIssuesFound : Nat
  totalChecks : Nat
  lastCheckTime : Option Nat
  deriving DecidableEq, Repr

/-- Argument of `Storage.addNotification`. -/
structure Notification where
  repository : String
  issueNumber : Nat
  issueTitle : String
  issueUrl : String
  labels : List String
  deriving DecidableEq, Repr

/-- Entry of the stored `notificationHistory` array. -/
structure NotificationRecord where
  repository : String
  issueNumber : Nat
  issueTitle : String
  issueUrl : String
  labels : List String
  timestamp : Nat
  deriving DecidableEq, Repr

/-- Options object handed to `chrome.notifications.create`. -/
structure Alert where
  title : String
  message : String
  priority : Nat
  requireInteraction : Option Bool
  buttons : Option (List String)
  deriving DecidableEq, Repr

/-- Observable actions of the pass, in the order they happen. -/
inductive Event where
  | fetch (owner repo : String) (token : Option String)
  | send (fullName : String) (issueNumber : Nat)
  | alert (a : Alert)
  | record (r : NotificationRecord)
  | statsWrite (s : Stats)
  deriving DecidableEq, Repr

/-- Places where the pass reads `Date.now()`. -/
inductive Site where
  | record (i j : Nat)
  | checked (i : Nat)
  | stats
  deriving DecidableEq, Repr

/-- The outside world of one pass, indexed by call site. -/
structure Env where
  fetch : Nat → Nat → Except String Response
  create : Nat → Nat → Option String
  now : Site → Nat
  isFirefox : Bool

/-- The store together with the trace of observable actions. -/
structure World where
  repositories : Option (List Repo)
  settings : Option Settings
  notificationHistory : Option (List NotificationRecord)
  stats : Option Stats
  trace : List Event
  deriving DecidableEq, Repr

/-- Append an event to the trace. -/
def World.log (w : World) (e : Event) : World :=
  { w with trace := w.trace ++ [e] }

/-! ## storage.js -/

/-- The method `Storage.getRepositories`. -/
def getRepositories (w : World) : List Repo :=
  w.repositories.getD []

/-- Partial object passed to `Storage.updateRepository`; `none` is an absent
key, and `lastIssueNumber := some none` is the key present with `null`. -/
structure Updates where
  status : Option Status := none
  lastIssueNumber : Option (Option JsNum) := none
  lastChecked : Option Nat := none
  lastError : Option String := none
  deriving DecidableEq, Repr

/-- The spread `{ ...r, ...updates }`. -/
def applyUpdates (r : Repo) (u : Updates) : Repo :=
  { r with
    status := u.status.getD r.status
    lastIssueNumber := u.lastIssueNumber.getD r.lastIssueNumber
    lastChecked := match u.lastChecked with
      | some t => some t
      | none => r.lastChecked
    lastError := match u.lastError with
      | some e => some e
      | none => r.lastError }

/-- The method `Storage.updateRepository`: the first entry with the given
`fullName` is replaced; nothing is written when there is none. -/
def updateRepository (fullName : String) (updates : Updates) (w : World) : World :=
  let repositories := getRepositories w
  match repositories.findIdx? (fun r => r.fullName == fullName) with
  | none => w
  | some index =>
    match repositories.get? index with
    | none => w
    | some old => { w with repositories := some (repositories.set index (applyUpdates old updates)) }

/-- The method `Storage.getSettings` with its defaults. -/
def getSettings (w : World) : Settings :=
  w.settings.getD
    { checkInterval := 10, githubToken := "", notificationsEnabled := true,
      soundEnabled := true, theme := "dark" }

/-- The method `Storage.getNotificationHistory(limit)`. -/
def getNotificationHistory (limit : Nat) (w : World) : List NotificationRecord :=
  (w.notificationHistory.getD []).take limit

/-- Default value of the parameter `limit` of `getNotificationHistory`. -/
def defaultLimit : Nat := 50

/-- The method `Storage.addNotification`; `now` is the reading of `Date.now()`. -/
def addNotification (now : Nat) (n : Notification) (w : World) : World :=
  let history := getNotificationHistory defaultLimit w
  let rec0 : NotificationRecord :=
    { repository := n.repository, issueNumber := n.issueNumber, issueTitle := n.issueTitle,
      issueUrl := n.issueUrl, labels := n.labels, timestamp := now }
  let history := rec0 :: history
  let trimmed := history.take 100
  { w with notificationHistory := some trimmed, trace := w.trace ++ [Event.record rec0] }

/-- The method `Storage.getStats` with its defaults. -/
def getStats (w : World) : Stats :=
  w.stats.getD { totalIssuesFound := 0, totalChecks := 0, lastCheckTime := none }

/-- Partial object passed to `Storage.updateStats`. -/
structure StatsUpdates where
  totalIssuesFound : Option Nat := none
  totalChecks : Option Nat := none
  lastCheckTime : Option Nat := none
  deriving DecidableEq, Repr

/-- The method `Storage.updateStats`. -/
def updateStats (u : StatsUpdates) (w : World) : World :=
  let currentStats := getStats w
  let updated : Stats :=
    { totalIssuesFound := u.totalIssuesFound.getD currentStats.totalIssuesFound
      totalChecks := u.totalChecks.getD currentStats.totalChecks
      lastCheckTime := match u.lastCheckTime with
        | some t => some t
        | none => currentStats.lastCheckTime }
  { w with stats := some updated, trace := w.trace ++ [Event.statsWrite updated] }

/-! ## github-api.js -/

/-- The expression `settings.githubToken || null`. -/
def tokenOrNull (token : String) : Option String :=
  if token = "" then none else some token

/-- The body of `GitHubAPI.fetchIssues` after the request at call site
`(i, k)` has been answered.  A network or parse failure is an `error` of the
oracle and is rethrown unchanged; the rate-limit headers only feed console
output and the unused `rateLimit` field, so they are left out. -/
def fetchIssuesResult (env : Env) (i k : Nat) : Except String (List Issue) :=
  match env.fetch i k with
  | .error e => .error e
  | .ok response =>
    if !response.ok then
      if response.status = 404 then
        .error "Repository not found"
      else if response.status = 403 then
        .error "Rate limit exceeded. Please add a GitHub token in settings."
      else
        .error ("GitHub API error: " ++ toString response.status)
    else
      let issues := response.body
      let actualIssues := issues.filter (fun issue => !issue.pull_request)
      .ok actualIssues

/-- The method `GitHubAPI.fetchIssues` at call site `(i, k)`: the request is
recorded in the trace and answered by the oracle. -/
def fetchIssues (env : Env) (i k : Nat) (owner repo : String) (token : Option String)
    (w : World) : World × Except String (List Issue) :=
  (w.log (Event.fetch owner repo token), fetchIssuesResult env i k)

/-- The part of `GitHubAPI.getNewIssues` that follows its request. -/
def getNewIssuesResult (lastIssueNumber : Option JsNum) :
    Except String (List Issue) → Except String (List Issue)
  | .error e => .error e
  | .ok result =>
    if !truthy lastIssueNumber then
      .ok []
    else
      let newIssues := result.filter (fun issue => numGt issue.number lastIssueNumber)
      .ok newIssues

/-- The method `GitHubAPI.getNewIssues`, whose request is call site `(i, 0)`. -/
def getNewIssues (env : Env) (i : Nat) (owner repo : String) (lastIssueNumber : Option JsNum)
    (token : Option String) (w : World) : World × Except String (List Issue) :=
  match fetchIssues env i 0 owner repo token w with
  | (w, result) => (w, getNewIssuesResult lastIssueNumber result)

/-! ## background.js -/

/-- The array `beginnerLabels` of `sendNotification`. -/
def beginnerLabels : List String :=
  ["good first issue", "beginner-friendly", "easy", "help wanted"]

/-- The test `s.includes(t)`. -/
def includes (s t : String) : Bool :=
  decide (t.data <:+: s.data)

/-- The method `toLowerCase`, on the ASCII letters. -/
def toLowerCase (s : String) : String :=
  s.map Char.toLower

/-- The flag `isBeginnerFriendly` of `sendNotification`. -/
def isBeginnerFriendly (issue : Issue) : Bool :=
  issue.labels.any (fun l => beginnerLabels.any (fun bl => includes (toLowerCase l.name) bl))

/-- The object `notificationOptions` built by `sendNotification`. -/
def notificationOptions (env : Env) (repo : Repo) (issue : Issue) : Alert :=
  let labels := ", ".intercalate (issue.labels.map (fun l => l.name))
  let labelText := if labels ≠ "" then "\n🏷️ " ++ labels else ""
  let priority := if isBeginnerFriendly issue then 2 else 1
  { title := "🆕 New Issue in " ++ repo.fullName
    message := "#" ++ toString issue.number ++ ": " ++ issue.title ++ labelText ++
      (if isBeginnerFriendly issue then "\n⭐ Good First Issue!" else "")
    priority := priority
    requireInteraction := if !env.isFirefox then some (isBeginnerFriendly issue) else none
    buttons := if !env.isFirefox then some ["View Issue"] else none }

/-- The function `sendNotification` for the `j`-th new issue of position `i`.
The result is the message of the exception it ends with, if any: the only
statement that can throw is the call of `chrome.notifications.create`. -/
def sendNotification (env : Env) (i j : Nat) (repo : Repo) (issue : Issue) (w : World) :
    World × Option String :=
  let w := w.log (Event.send repo.fullName issue.number)
  let settings := getSettings w
  if !settings.notificationsEnabled then
    (w, none)
  else
    match env.create i j with
    | some e => (w, some e)
    | none => (w.log (Event.alert (notificationOptions env repo issue)), none)

/-- The loop `for (const issue of newIssues)` of the pass; `j` is the index
of the first issue of the list.  It stops at the first exception. -/
def notifyLoop (env : Env) (i : Nat) (repo : Repo) : Nat → List Issue → World → World × Option String
  | _, [], w => (w, none)
  | j, issue :: rest, w =>
    match sendNotification env i j repo issue w with
    | (w, some e) => (w, some e)
    | (w, none) =>
      let w := addNotification (env.now (Site.record i j))
        { repository := repo.fullName, issueNumber := issue.number, issueTitle := issue.title,
          issueUrl := issue.html_url, labels := issue.labels.map (fun l => l.name) } w
      notifyLoop env i repo (j + 1) rest w

/-- The body of the `try` block for the repository at position `i`: the new
world, the new value of `totalNewIssues` and the exception raised, if any. -/
def tryBody (env : Env) (settings : Settings) (i : Nat) (repo : Repo) (w : World)
    (totalNewIssues : Nat) : World × Nat × Option String :=
  let w := updateRepository repo.fullName { status := some Status.checking } w
  match getNewIssues env i repo.owner repo.repo repo.lastIssueNumber
      (tokenOrNull settings.githubToken) w with
  | (w, .error e) => (w, totalNewIssues, some e)
  | (w, .ok newIssues) =>
    if newIssues.length > 0 then
      let totalNewIssues := totalNewIssues + newIssues.length
      match notifyLoop env i repo 0 newIssues w with
      | (w, some e) => (w, totalNewIssues, some e)
      | (w, none) =>
        let latestIssueNumber := mathMax (newIssues.map (fun x => x.number))
        let w := updateRepository repo.fullName
          { lastIssueNumber := some (some (mathMax2 latestIssueNumber (orZero repo.lastIssueNumber)))
            lastChecked := some (env.now (Site.checked i))
            status := some Status.active } w
        (w, totalNewIssues, none)
    else
      match fetchIssues env i 1 repo.owner repo.repo (tokenOrNull settings.githubToken) w with
      | (w, .error e) => (w, totalNewIssues, some e)
      | (w, .ok allIssues) =>
        let latestIssueNumber : Option JsNum :=
          if allIssues.length > 0 then some (mathMax (allIssues.map (fun x => x.number)))
          else repo.lastIssueNumber
        let w := updateRepository repo.fullName
          { lastIssueNumber := some (orElse latestIssueNumber repo.lastIssueNumber)
            lastChecked := some (env.now (Site.checked i))
            status := some Status.active } w
        (w, totalNewIssues, none)

/-- One iteration of `for (const repo of repositories)`: the `try` block and
its `catch`. -/
def processRepo (env : Env) (settings : Settings) (i : Nat) (repo : Repo) (w : World)
    (totalNewIssues : Nat) : World × Nat :=
  match tryBody env settings i repo w totalNewIssues with
  | (w, totalNewIssues, none) => (w, totalNewIssues)
  | (w, totalNewIssues, some message) =>
    (updateRepository repo.fullName
      { status := some Status.error
        lastError := some message
        lastChecked := some (env.now (Site.checked i)) } w, totalNewIssues)

/-- The loop `for (const repo of repositories)`, from position `i` on. -/
def repoLoop (env : Env) (settings : Settings) : Nat → List Repo → World → Nat → World × Nat
  | _, [], w, totalNewIssues => (w, totalNewIssues)
  | i, repo :: rest, w, totalNewIssues =>
    match processRepo env settings i repo w totalNewIssues with
    | (w, totalNewIssues) => repoLoop env settings (i + 1) rest w totalNewIssues

/-- The function `checkAllRepositories`. -/
def checkAllRepositories (env : Env) (w : World) : World :=
  let repositories := getRepositories w
  let settings := getSettings w
  let stats := getStats w
  if repositories.length = 0 then
    w
  else
    match repoLoop env settings 0 repositories w 0 with
    | (w, totalNewIssues) =>
      updateStats
        { totalIssuesFound := some (stats.totalIssuesFound + totalNewIssues)
          totalChecks := some (stats.totalChecks + 1)
          lastCheckTime := some (env.now Site.stats) } w

/-! ## storage.js and settings.js: adding, removing, exporting -/

/-- The method `Storage.addRepository`; `now` is the reading of `Date.now()`.
The exception is the `error` result, and then nothing is written. -/
def addRepository (now : Nat) (owner repo : String) (w : World) : Except String (World × Repo) :=
  let repositories := getRepositories w
  let alreadyThere := repositories.any (fun r => r.owner == owner && r.repo == repo)
  if alreadyThere then
    .error "Repository already being monitored"
  else
    let newRepo : Repo :=
      { owner := owner
        repo := repo
        fullName := owner ++ "/" ++ repo
        addedAt := now
        lastChecked := none
        lastIssueNumber := none
        status := Status.active
        lastError := none }
    .ok ({ w with repositories := some (repositories ++ [newRepo]) }, newRepo)

/-- The method `Storage.removeRepository`. -/
def removeRepository (fullName : String) (w : World) : World :=
  let repositories := getRepositories w
  let filtered := repositories.filter (fun r => r.fullName != fullName)
  { w with repositories := some filtered }

/-- The `settings` object of the export document. -/
structure ExportSettings where
  checkInterval : Nat
  notificationsEnabled : Bool
  soundEnabled : Bool
  deriving DecidableEq, Repr

/-- The object `exportData` built by the function `exportData` of
`settings.js`. -/
structure ExportDocument where
  repositories : List Repo
  settings : ExportSettings
  stats : Stats
  exportedAt : String
  deriving DecidableEq, Repr

/-- The document built by `exportData`; `isoNow` is `new Date().toISOString()`. -/
def exportData (isoNow : String) (w : World) : ExportDocument :=
  let repositories := getRepositories w
  let settings := getSettings w
  let stats := getStats w
  { repositories := repositories
    settings :=
      { checkInterval := settings.checkInterval
        notificationsEnabled := settings.notificationsEnabled
        soundEnabled := settings.soundEnabled }
    stats := stats
    exportedAt := isoNow }

/-- The store with the stored settings replaced. -/
def withSettings (w : World) (s : Settings) : World :=
  { w with settings := some s }

/-- The settings with the token replaced. -/
def withToken (s : Settings) (token : String) : Settings :=
  { s with githubToken := token }

/-- The record that `Storage.addNotification` puts in front of the log. -/
def recordOf (now : Nat) (n : Notification) : NotificationRecord :=
  { repository := n.repository, issueNumber := n.issueNumber, issueTitle := n.issueTitle,
    issueUrl := n.issueUrl, labels := n.labels, timestamp := now }

/-- The part of the alert message that precedes the marker line. -/
def baseMessage (issue : Issue) : String :=
  "#" ++ toString issue.number ++ ": " ++ issue.title ++
    (if ", ".intercalate (issue.labels.map (fun l => l.name)) ≠ ""
      then "\n🏷️ " ++ ", ".intercalate (issue.labels.map (fun l => l.name)) else "")

/-- An issue is approachable when one of its label names, lower-cased,
contains one of the four markers. -/
def approachable (issue : Issue) : Prop :=
  ∃ l ∈ issue.labels,
    ∃ m ∈ ["good first issue", "beginner-friendly", "easy", "help wanted"],
      m.data <:+: (toLowerCase l.name).data

/-- The names of the added list, when `addRepository` does not throw. -/
def addedNames : Except String (World × Repo) → Option (List String)
  | .ok (w, _) => some ((getRepositories w).map (fun r => r.fullName))
  | .error _ => none

/-- A label with the given name. -/
def mkLabel (name : String) : Label :=
  { name := name }

/-! ## Concrete data used by the examples -/

/-- An issue that is not a pull request, with the given number. -/
def mkIssue (n : Nat) : Issue :=
  { number := n, title := "t", html_url := "u", labels := [], pull_request := false }

/-- A pull request entry with the given number. -/
def mkPull (n : Nat) : Issue :=
  { number := n, title := "p", html_url := "v", labels := [], pull_request := true }

/-- A tracked repository with the given names and watermark. -/
def mkRepo (owner repo : String) (wm : Option JsNum) : Repo :=
  { owner := owner, repo := repo, fullName := owner ++ "/" ++ repo, addedAt := 0,
    lastChecked := none, lastIssueNumber := wm, status := Status.active, lastError := none }

/-- A store holding the given repositories and nothing else. -/
def mkWorld (rs : List Repo) : World :=
  { repositories := some rs, settings := none, notificationHistory := none, stats := none,
    trace := [] }

/-- An environment answering every request with status 200 and the page
chosen by `pages`, in which no alert fails and every clock reading is 0. -/
def mkEnv (pages : Nat → Nat → List Issue) : Env :=
  { fetch := fun i k => .ok { status := 200, body := pages i k }
    create := fun _ _ => none
    now := fun _ => 0
    isFirefox := false }

/-! ## Summaries of one iteration

What one iteration of the loop does is determined by the snapshot entry, the
settings and the answers of the outside world at that position.  The
functions below compute it without a store; `processRepo_spec` proves that
`processRepo` acts on every store accordingly. -/

/-- Replace the first element satisfying `p` by its image under `f`. -/
def modifyFirst (p : Repo → Bool) (f : Repo → Repo) : List Repo → List Repo
  | [] => []
  | r :: rs => if p r then f r :: rs else r :: modifyFirst p f rs

/-- Exception raised by `sendNotification` at site `(i, j)`, if any. -/
def sendError (env : Env) (enabled : Bool) (i j : Nat) : Option String :=
  if !enabled then none else env.create i j

/-- Events of one call of `sendNotification`. -/
def sendEvents (env : Env) (enabled : Bool) (i j : Nat) (repo : Repo) (issue : Issue) :
    List Event :=
  Event.send repo.fullName issue.number ::
    (if !enabled then []
     else match env.create i j with
       | some _ => []
       | none => [Event.alert (notificationOptions env repo issue)])

/-- The record stored for the `j`-th new issue of position `i`. -/
def recordFor (env : Env) (i j : Nat) (repo : Repo) (issue : Issue) : NotificationRecord :=
  { repository := repo.fullName, issueNumber := issue.number, issueTitle := issue.title,
    issueUrl := issue.html_url, labels := issue.labels.map (fun l => l.name),
    timestamp := env.now (Site.record i j) }

/-- Exception with which `notifyLoop` ends, if any. -/
def loopError (env : Env) (enabled : Bool) (i : Nat) : Nat → List Issue → Option String
  | _, [] => none
  | j, _ :: rest =>
    match sendError env enabled i j with
    | some e => some e
    | none => loopError env enabled i (j + 1) rest

/-- Events of `notifyLoop`. -/
def loopEvents (env : Env) (enabled : Bool) (i : Nat) (repo : Repo) :
    Nat → List Issue → List Event
  | _, [] => []
  | j, issue :: rest =>
    sendEvents env enabled i j repo issue ++
      (match sendError env enabled i j with
       | some _ => []
       | none => Event.record (recordFor env i j repo issue) ::
           loopEvents env enabled i repo (j + 1) rest)

/-- What one iteration does: the last update of the entry, the events, the
number added to `totalNewIssues` and the exception caught, if any. -/
structure Outcome where
  updates : Updates
  events : List Event
  found : Nat
  error : Option String
  deriving DecidableEq, Repr

/-- The update written by the `catch` block. -/
def errorUpdates (env : Env) (i : Nat) (message : String) : Updates :=
  { status := some Status.error
    lastError := some message
    lastChecked := some (env.now (Site.checked i)) }

/-- The update written at the end of a `try` block that raised nothing. -/
def activeUpdates (env : Env) (i : Nat) (wm : Option JsNum) : Updates :=
  { lastIssueNumber := some wm
    lastChecked := some (env.now (Site.checked i))
    status := some Status.active }

/-- The outcome of the iteration for `repo` at position `i`. -/
def outcome (env : Env) (settings : Settings) (i : Nat) (repo : Repo) : Outcome :=
  let request := Event.fetch repo.owner repo.repo (tokenOrNull settings.githubToken)
  match getNewIssuesResult repo.lastIssueNumber (fetchIssuesResult env i 0) with
  | .error e => ⟨errorUpdates env i e, [request], 0, some e⟩
  | .ok newIssues =>
    if newIssues.length > 0 then
      let events := request :: loopEvents env settings.notificationsEnabled i repo 0 newIssues
      match loopError env settings.notificationsEnabled i 0 newIssues with
      | some e => ⟨errorUpdates env i e, events, newIssues.length, some e⟩
      | none =>
        ⟨activeUpdates env i (some (mathMax2 (mathMax (newIssues.map (fun x => x.number)))
            (orZero repo.lastIssueNumber))), events, newIssues.length, none⟩
    else
      match fetchIssuesResult env i 1 with
      | .error e => ⟨errorUpdates env i e, [request, request], 0, some e⟩
      | .ok allIssues =>
        ⟨activeUpdates env i (orElse
            (if allIssues.length > 0 then some (mathMax (allIssues.map (fun x => x.number)))
             else repo.lastIssueNumber) repo.lastIssueNumber), [request, request], 0, none⟩

/-- The entry stored for `repo` after its iteration. -/
def finalEntry (env : Env) (settings : Settings) (i : Nat) (repo : Repo) : Repo :=
  applyUpdates repo (outcome env settings i repo).updates

/-- Entries after the iterations for positions `k`, `k + 1`, ... -/
def entriesFrom (env : Env) (settings : Settings) : Nat → List Repo → List Repo
  | _, [] => []
  | k, r :: rs => finalEntry env settings k r :: entriesFrom env settings (k + 1) rs

/-- Events of the iterations for positions `k`, `k + 1`, ... -/
def eventsFrom (env : Env) (settings : Settings) : Nat → List Repo → List Event
  | _, [] => []
  | k, r :: rs => (outcome env settings k r).events ++ eventsFrom env settings (k + 1) rs

/-- Number of new issues found by the iterations for positions `k`, `k + 1`, ... -/
def foundFrom (env : Env) (settings : Settings) : Nat → List Repo → Nat
  | _, [] => 0
  | k, r :: rs => (outcome env settings k r).found + foundFrom env settings (k + 1) rs

/-- Statistics written by a pass over a non-empty list. -/
def passStats (env : Env) (w : World) : Stats :=
  { totalIssuesFound := (getStats w).totalIssuesFound +
      foundFrom env (getSettings w) 0 (getRepositories w)
    totalChecks := (getStats w).totalChecks + 1
    lastCheckTime := some (env.now Site.stats) }

/-- Notification number `n` of the retention scenario. -/
def sampleNotification (n : Nat) : Notification :=
  { repository := "octo/demo", issueNumber := n, issueTitle := "t", issueUrl := "u", labels := [] }

/-- Insert the notifications `1, ..., n` one after another with
`Storage.addNotification`, the `k`-th at time `k`. -/
def insertMany : Nat → World → World
  | 0, w => w
  | n + 1, w => addNotification (n + 1) (sampleNotification (n + 1)) (insertMany n w)

/-- The stored notification log. -/
def storedHistory (w : World) : List NotificationRecord :=
  w.notificationHistory.getD []

/-- The stored watermarks, in list order. -/
def watermarks (w : World) : List (Option JsNum) :=
  (getRepositories w).map (fun r => r.lastIssueNumber)

/-- The stored statuses, in list order. -/
def statuses (w : World) : List Status :=
  (getRepositories w).map (fun r => r.status)

/-- Events that a pass started in `w` added to the trace. -/
def passEvents (env : Env) (w : World) : List Event :=
  (checkAllRepositories env w).trace.drop w.trace.length

/-- The calls of `sendNotification` and of `Storage.addNotification` made for
the repository named `name`, among the given events. -/
def eventsOf (name : String) (es : List Event) : List Event :=
  es.filter (fun e =>
    match e with
    | Event.send n _ => n == name
    | Event.record r => r.repository == name
    | _ => false)

/-- One call of `sendNotification` followed by one call of
`Storage.addNotification` for each issue of the list, the first issue being
the `j`-th new issue of position `i`. -/
def notices (env : Env) (i : Nat) (repo : Repo) : Nat → List Issue → List Event
  | _, [] => []
  | j, x :: xs =>
    Event.send repo.fullName x.number :: Event.record (recordFor env i j repo x) ::
      notices env i repo (j + 1) xs

/-- The new issues of the repository at position `i`: what `getNewIssues`
returns for it, and nothing when its request fails. -/
def newIssuesAt (env : Env) (i : Nat) (repo : Repo) : List Issue :=
  match getNewIssuesResult repo.lastIssueNumber (fetchIssuesResult env i 0) with
  | .ok newIssues => newIssues
  | .error _ => []

/-- Total number of new issues of the repositories at positions `k`, `k + 1`, ... -/
def newIssuesTotal (env : Env) : Nat → List Repo → Nat
  | _, [] => 0
  | k, r :: rs => (newIssuesAt env k r).length + newIssuesTotal env (k + 1) rs

/-- Two outside worlds answer alike at every call site of position `i`. -/
def agreeAt (env env2 : Env) (i : Nat) : Prop :=
  (∀ k, env.fetch i k = env2.fetch i k) ∧ (∀ j, env.create i j = env2.create i j) ∧
  (∀ j, env.now (Site.record i j) = env2.now (Site.record i j)) ∧
  env.now (Site.checked i) = env2.now (Site.checked i)

/-- The store of the scenarios: the single repository `octo/demo` with the
given watermark. -/
def demoWorld (wm : Option JsNum) : World :=
  mkWorld [mkRepo "octo" "demo" wm]

/-- The source of the scenarios: every request is answered with the issues
numbered by `page`. -/
def demoEnv (page : List Nat) : Env :=
  mkEnv (fun _ _ => page.map mkIssue)

/-- The event is an action of the iteration for `repo`: a request for its
issues, a call of `sendNotification` for it, an alert about one of its issues
or a record stored for it. -/
def ownedBy (env : Env) (repo : Repo) (ev : Event) : Prop :=
  (∃ token, ev = Event.fetch repo.owner repo.repo token) ∨
  (∃ n, ev = Event.send repo.fullName n) ∨
  (∃ issue, ev = Event.alert (notificationOptions env repo issue)) ∨
  (∃ rc, ev = Event.record rc ∧ rc.repository = repo.fullName)

/-- The store of the isolation scenario: `octo/gone` with watermark 3 and
`octo/demo` with watermark 5. -/
def isolationWorld : World :=
  mkWorld [mkRepo "octo" "gone" (some (JsNum.fin 3)), mkRepo "octo" "demo" (some (JsNum.fin 5))]

/-- The source of the isolation scenario: status 404 for position 0 and the
open issues `[#7, #6, #5]` for every other position. -/
def isolationEnv : Env :=
  { fetch := fun i _ =>
      if i = 0 then .ok { status := 404, body := [] }
      else .ok { status := 200, body := [mkIssue 7, mkIssue 6, mkIssue 5] }
    create := fun _ _ => none
    now := fun _ => 0
    isFirefox := false }

/-- The source of the dispatch scenario: every request is answered with the
open issue `[#7]`, and creating the alert for the first new issue of position
0 throws. -/
def throwingEnv : Env :=
  { fetch := fun _ _ => .ok { status := 200, body := [mkIssue 7] }
    create := fun i j => if i = 0 ∧ j = 0 then some "alert failed" else none
    now := fun _ => 0
    isFirefox := false }

/-- The issues `getNewIssues` keeps from the answer `page`. -/
def newOf (wm : Option JsNum) (page : List Issue) : List Issue :=
  if !truthy wm then [] else page.filter (fun issue => numGt issue.number wm)

/-- Watermark, status and number of new issues that one iteration yields when
both requests get the answer `answer` and no alert throws. -/
def settle (answer : Except String (List Issue)) (wm : Option JsNum) :
    Option JsNum × Status × Nat :=
  match answer with
  | .error _ => (wm, Status.error, 0)
  | .ok page =>
    if newOf wm page ≠ [] then
      (some (mathMax2 (mathMax ((newOf wm page).map (fun x => x.number))) (orZero wm)),
        Status.active, (newOf wm page).length)
    else
      (orElse (if page.length > 0 then some (mathMax (page.map (fun x => x.number))) else wm) wm,
        Status.active, 0)

/-- The outside world in which the source leaves the pull-request entries
out of every answer. -/
def stripPulls (env : Env) : Env :=
  { fetch := fun i k =>
      match env.fetch i k with
      | .ok response =>
        .ok { status := response.status,
              body := response.body.filter (fun issue => !issue.pull_request) }
      | .error e => .error e
    create := env.create
    now := env.now
    isFirefox := env.isFirefox }

/-! ## Basic facts about the store operations -/

@[simp] theorem log_settings (w : World) (e : Event) : (w.log e).settings = w.settings := rfl
@[simp] theorem log_stats (w : World) (e : Event) : (w.log e).stats = w.stats := rfl
@[simp] theorem log_repositories (w : World) (e : Event) :
    (w.log e).repositories = w.repositories := rfl
@[simp] theorem log_trace (w : World) (e : Event) : (w.log e).trace = w.trace ++ [e] := rfl
@[simp] theorem log_history (w : World) (e : Event) :
    (w.log e).notificationHistory = w.notificationHistory := rfl

theorem getSettings_congr {w v : World} (h : v.settings = w.settings) :
    getSettings v = getSettings w := by
  unfold getSettings; rw [h]

theorem getRepositories_congr {w v : World} (h : v.repositories = w.repositories) :
    getRepositories v = getRepositories w := by
  unfold getRepositories; rw [h]

theorem getStats_congr {w v : World} (h : v.stats = w.stats) :
    getStats v = getStats w := by
  unfold getStats; rw [h]

theorem modify_findIdx (p : Repo → Bool) (f : Repo → Repo) (l : List Repo) :
    (match l.findIdx? p with
      | none => l
      | some index =>
        match l.get? index with
        | none => l
        | some old => l.set index (f old)) = modifyFirst p f l := by
  induction l with
  | nil => rfl
  | cons x xs ih =>
    rw [List.findIdx?_cons]
    by_cases hx : p x = true
    · simp [hx, modifyFirst]
    · simp only [hx, Bool.false_eq_true, if_false, modifyFirst]
      rw [List.findIdx?_succ]
      rw [← ih]
      cases h : List.findIdx? p xs 0 with
      | none => simp
      | some idx =>
        simp only [Option.map_some', List.get?_cons_succ, List.set_cons_succ]
        cases hg : xs.get? idx <;> simp

theorem updateRepository_settings (n : String) (u : Updates) (w : World) :
    (updateRepository n u w).settings = w.settings := by
  unfold updateRepository
  simp only []
  split
  · rfl
  · split <;> rfl

theorem updateRepository_stats (n : String) (u : Updates) (w : World) :
    (updateRepository n u w).stats = w.stats := by
  unfold updateRepository
  simp only []
  split
  · rfl
  · split <;> rfl

theorem updateRepository_trace (n : String) (u : Updates) (w : World) :
    (updateRepository n u w).trace = w.trace := by
  unfold updateRepository
  simp only []
  split
  · rfl
  · split <;> rfl

theorem updateRepository_history (n : String) (u : Updates) (w : World) :
    (updateRepository n u w).notificationHistory = w.notificationHistory := by
  unfold updateRepository
  simp only []
  split
  · rfl
  · split <;> rfl

theorem getRepositories_updateRepository (n : String) (u : Updates) (w : World) :
    getRepositories (updateRepository n u w) =
      modifyFirst (fun r => r.fullName == n) (fun r => applyUpdates r u) (getRepositories w) := by
  rw [← modify_findIdx]
  unfold updateRepository
  simp only []
  split
  · rfl
  · split
    · rfl
    · simp [getRepositories]

theorem modifyFirst_modifyFirst (p : Repo → Bool) (f g : Repo → Repo)
    (hp : ∀ r, p (f r) = p r) (l : List Repo) :
    modifyFirst p g (modifyFirst p f l) = modifyFirst p (fun r => g (f r)) l := by
  induction l with
  | nil => rfl
  | cons x xs ih =>
    by_cases hx : p x = true
    · simp [modifyFirst, hx, hp]
    · simp [modifyFirst, hx, ih]

theorem applyUpdates_fullName (r : Repo) (u : Updates) : (applyUpdates r u).fullName = r.fullName :=
  rfl

theorem applyUpdates_checking (r : Repo) (u : Updates) (h : u.status.isSome = true) :
    applyUpdates (applyUpdates r { status := some Status.checking }) u = applyUpdates r u := by
  cases hs : u.status with
  | none => simp [hs] at h
  | some st => simp [applyUpdates, hs]

theorem sendNotification_eq (env : Env) (i j : Nat) (repo : Repo) (issue : Issue) (w : World) :
    sendNotification env i j repo issue w =
      ({ w with trace := w.trace ++
          sendEvents env (getSettings w).notificationsEnabled i j repo issue },
        sendError env (getSettings w).notificationsEnabled i j) := by
  have hset : getSettings (w.log (Event.send repo.fullName issue.number)) = getSettings w :=
    getSettings_congr rfl
  unfold sendNotification sendEvents sendError
  simp only [hset]
  cases he : (getSettings w).notificationsEnabled
  · simp [World.log]
  · cases hc : env.create i j <;> simp [World.log]

theorem notifyLoop_spec (env : Env) (i : Nat) (repo : Repo) (xs : List Issue) :
    ∀ (j : Nat) (w : World),
      (notifyLoop env i repo j xs w).2 =
          loopError env (getSettings w).notificationsEnabled i j xs ∧
      (notifyLoop env i repo j xs w).1.trace =
          w.trace ++ loopEvents env (getSettings w).notificationsEnabled i repo j xs ∧
      (notifyLoop env i repo j xs w).1.repositories = w.repositories ∧
      (notifyLoop env i repo j xs w).1.settings = w.settings ∧
      (notifyLoop env i repo j xs w).1.stats = w.stats := by
  induction xs with
  | nil => intro j w; simp [notifyLoop, loopError, loopEvents]
  | cons x rest ih =>
    intro j w
    unfold notifyLoop loopError loopEvents
    rw [sendNotification_eq]
    cases hse : sendError env (getSettings w).notificationsEnabled i j with
    | some e => simp
    | none =>
      simp only []
      have hw : getSettings (addNotification (env.now (Site.record i j))
          { repository := repo.fullName, issueNumber := x.number, issueTitle := x.title,
            issueUrl := x.html_url, labels := x.labels.map (fun l => l.name) }
          { w with trace := w.trace ++
              sendEvents env (getSettings w).notificationsEnabled i j repo x }) =
          getSettings w := getSettings_congr rfl
      obtain ⟨h1, h2, h3, h4, h5⟩ := ih (j + 1) (addNotification (env.now (Site.record i j))
          { repository := repo.fullName, issueNumber := x.number, issueTitle := x.title,
            issueUrl := x.html_url, labels := x.labels.map (fun l => l.name) }
          { w with trace := w.trace ++
              sendEvents env (getSettings w).notificationsEnabled i j repo x })
      rw [hw] at h1 h2
      refine ⟨h1, ?_, ?_, ?_, ?_⟩
      · rw [h2]; simp [addNotification, recordFor]
      · rw [h3]; rfl
      · rw [h4]; rfl
      · rw [h5]; rfl

theorem repos_after_checking (n : String) (u : Updates) (w w2 : World)
    (h : w2.repositories = (updateRepository n { status := some Status.checking } w).repositories)
    (hu : u.status.isSome = true) :
    getRepositories (updateRepository n u w2) =
      modifyFirst (fun r => r.fullName == n) (fun r => applyUpdates r u) (getRepositories w) := by
  rw [getRepositories_updateRepository, getRepositories_congr h, getRepositories_updateRepository,
    modifyFirst_modifyFirst _ _ _ (fun r => by simp [applyUpdates_fullName])]
  congr 1
  funext r
  exact applyUpdates_checking r u hu

theorem processRepo_spec (env : Env) (settings : Settings) (i : Nat) (repo : Repo) (w : World)
    (t : Nat) (hs : getSettings w = settings) :
    (processRepo env settings i repo w t).2 = t + (outcome env settings i repo).found ∧
    (processRepo env settings i repo w t).1.trace =
      w.trace ++ (outcome env settings i repo).events ∧
    (processRepo env settings i repo w t).1.settings = w.settings ∧
    (processRepo env settings i repo w t).1.stats = w.stats ∧
    getRepositories (processRepo env settings i repo w t).1 =
      modifyFirst (fun r => r.fullName == repo.fullName)
        (fun r => applyUpdates r (outcome env settings i repo).updates) (getRepositories w) := by
  have hw1s : getSettings ((updateRepository repo.fullName { status := some Status.checking } w).log
      (Event.fetch repo.owner repo.repo (tokenOrNull settings.githubToken))) = settings := by
    rw [← hs]; exact getSettings_congr (by simp [updateRepository_settings])
  unfold processRepo tryBody getNewIssues fetchIssues outcome
  simp only []
  cases hn : getNewIssuesResult repo.lastIssueNumber (fetchIssuesResult env i 0) with
  | error e =>
    simp only []
    refine ⟨by simp, ?_, ?_, ?_, ?_⟩
    · simp [updateRepository_trace]
    · simp [updateRepository_settings]
    · simp [updateRepository_stats]
    · exact repos_after_checking _ _ _ _ rfl rfl
  | ok newIssues =>
    simp only []
    by_cases hlen : newIssues.length > 0
    · simp only [hlen, if_true]
      obtain ⟨h1, h2, h3, h4, h5⟩ := notifyLoop_spec env i repo newIssues 0
        ((updateRepository repo.fullName { status := some Status.checking } w).log
          (Event.fetch repo.owner repo.repo (tokenOrNull settings.githubToken)))
      rw [hw1s] at h1 h2
      generalize notifyLoop env i repo 0 newIssues
        ((updateRepository repo.fullName { status := some Status.checking } w).log
          (Event.fetch repo.owner repo.repo (tokenOrNull settings.githubToken))) = res at *
      obtain ⟨w2, err⟩ := res
      simp only [] at h1 h2 h3 h4 h5
      rw [← h1]
      cases err with
      | some e =>
        simp only []
        refine ⟨by simp, ?_, ?_, ?_, ?_⟩
        · simp [updateRepository_trace, h2]
        · simp [updateRepository_settings, h4]
        · simp [updateRepository_stats, h5]
        · exact repos_after_checking _ _ _ _ h3 rfl
      | none =>
        simp only []
        refine ⟨by simp, ?_, ?_, ?_, ?_⟩
        · simp [updateRepository_trace, h2]
        · simp [updateRepository_settings, h4]
        · simp [updateRepository_stats, h5]
        · exact repos_after_checking _ _ _ _ h3 rfl
    · simp only [hlen, if_false]
      cases hf : fetchIssuesResult env i 1 with
      | error e =>
        simp only []
        refine ⟨by simp, ?_, ?_, ?_, ?_⟩
        · simp [updateRepository_trace]
        · simp [updateRepository_settings]
        · simp [updateRepository_stats]
        · exact repos_after_checking _ _ _ _ rfl rfl
      | ok allIssues =>
        simp only []
        refine ⟨by simp, ?_, ?_, ?_, ?_⟩
        · simp [updateRepository_trace]
        · simp [updateRepository_settings]
        · simp [updateRepository_stats]
        · exact repos_after_checking _ _ _ _ rfl rfl

theorem modifyFirst_append (p : Repo → Bool) (f : Repo → Repo) (done : List Repo) (r : Repo)
    (rs : List Repo) (hd : ∀ d ∈ done, p d = false) (hr : p r = true) :
    modifyFirst p f (done ++ r :: rs) = done ++ f r :: rs := by
  induction done with
  | nil => simp [modifyFirst, hr]
  | cons d ds ih =>
    have h1 : p d = false := hd d (List.mem_cons_self _ _)
    have h2 : ∀ x ∈ ds, p x = false := fun x hx => hd x (List.mem_cons_of_mem _ hx)
    simp [modifyFirst, h1, ih h2]

theorem repoLoop_frame (env : Env) (settings : Settings) (rest : List Repo) :
    ∀ (k : Nat) (w : World) (t : Nat), getSettings w = settings →
      (repoLoop env settings k rest w t).2 = t + foundFrom env settings k rest ∧
      (repoLoop env settings k rest w t).1.trace = w.trace ++ eventsFrom env settings k rest ∧
      (repoLoop env settings k rest w t).1.settings = w.settings ∧
      (repoLoop env settings k rest w t).1.stats = w.stats := by
  induction rest with
  | nil => intro k w t _; simp [repoLoop, foundFrom, eventsFrom]
  | cons r rs ih =>
    intro k w t hs
    obtain ⟨h1, h2, h3, h4, _⟩ := processRepo_spec env settings k r w t hs
    unfold repoLoop foundFrom eventsFrom
    generalize processRepo env settings k r w t = res at *
    obtain ⟨w1, t1⟩ := res
    simp only [] at h1 h2 h3 h4 ⊢
    have hs1 : getSettings w1 = settings := by rw [← hs]; exact getSettings_congr h3
    obtain ⟨g1, g2, g3, g4⟩ := ih (k + 1) w1 t1 hs1
    refine ⟨?_, ?_, ?_, ?_⟩
    · rw [g1, h1]; omega
    · rw [g2, h2]; simp
    · rw [g3, h3]
    · rw [g4, h4]

theorem repoLoop_repos (env : Env) (settings : Settings) (rest : List Repo) :
    ∀ (k : Nat) (w : World) (t : Nat) (done : List Repo), getSettings w = settings →
      getRepositories w = done ++ rest →
      (∀ d ∈ done, ∀ r ∈ rest, d.fullName ≠ r.fullName) →
      (rest.map (fun r => r.fullName)).Nodup →
      getRepositories (repoLoop env settings k rest w t).1 =
        done ++ entriesFrom env settings k rest := by
  induction rest with
  | nil => intro k w t done _ hw _ _; simpa [repoLoop, entriesFrom] using hw
  | cons r rs ih =>
    intro k w t done hs hw hdis hnd
    obtain ⟨_, _, h3, _, h5⟩ := processRepo_spec env settings k r w t hs
    unfold repoLoop entriesFrom
    generalize processRepo env settings k r w t = res at *
    obtain ⟨w1, t1⟩ := res
    simp only [] at h3 h5 ⊢
    have hs1 : getSettings w1 = settings := by rw [← hs]; exact getSettings_congr h3
    rw [hw, modifyFirst_append _ _ done r rs
      (fun d hd => by simpa using hdis d hd r (List.mem_cons_self _ _)) (by simp)] at h5
    rw [List.map_cons, List.nodup_cons] at hnd
    have h6 : getRepositories w1 = (done ++ [finalEntry env settings k r]) ++ rs := by
      rw [h5]; simp [finalEntry]
    have hdis1 : ∀ d ∈ done ++ [finalEntry env settings k r], ∀ x ∈ rs,
        d.fullName ≠ x.fullName := by
      intro d hd x hx
      rcases List.mem_append.mp hd with hd | hd
      · exact hdis d hd x (List.mem_cons_of_mem _ hx)
      · rw [List.mem_singleton] at hd
        subst hd
        intro heq
        apply hnd.1
        rw [List.mem_map]
        exact ⟨x, hx, by rw [← heq]; rfl⟩
    rw [ih (k + 1) w1 t1 _ hs1 h6 hdis1 hnd.2]
    simp

theorem entriesFrom_getElem? (env : Env) (settings : Settings) (l : List Repo) :
    ∀ (k i : Nat), (entriesFrom env settings k l)[i]? =
      (l[i]?).map (finalEntry env settings (k + i)) := by
  induction l with
  | nil => intro k i; simp [entriesFrom]
  | cons r rs ih =>
    intro k i
    cases i with
    | zero => simp [entriesFrom]
    | succ n =>
      simp only [entriesFrom, List.getElem?_cons_succ]
      rw [ih (k + 1) n]
      have hk : k + 1 + n = k + (n + 1) := by omega
      rw [hk]

/-- The pass on a store with at least one repository, in terms of the loop. -/
theorem checkAll_eq (env : Env) (w : World) (hne : getRepositories w ≠ []) :
    checkAllRepositories env w =
      updateStats
        { totalIssuesFound := some ((getStats w).totalIssuesFound +
            (repoLoop env (getSettings w) 0 (getRepositories w) w 0).2)
          totalChecks := some ((getStats w).totalChecks + 1)
          lastCheckTime := some (env.now Site.stats) }
        (repoLoop env (getSettings w) 0 (getRepositories w) w 0).1 := by
  unfold checkAllRepositories
  have : ¬ (getRepositories w).length = 0 := by
    intro h; exact hne (List.length_eq_zero.mp h)
  simp only [this, if_false]

theorem checkAll_stats (env : Env) (w : World) (hne : getRepositories w ≠ []) :
    (checkAllRepositories env w).stats = some (passStats env w) := by
  rw [checkAll_eq env w hne]
  obtain ⟨h1, _, _, _⟩ := repoLoop_frame env (getSettings w) (getRepositories w) 0 w 0 rfl
  simp [updateStats, passStats, h1]

theorem checkAll_trace (env : Env) (w : World) (hne : getRepositories w ≠ []) :
    (checkAllRepositories env w).trace =
      w.trace ++ eventsFrom env (getSettings w) 0 (getRepositories w) ++
        [Event.statsWrite (passStats env w)] := by
  rw [checkAll_eq env w hne]
  obtain ⟨h1, h2, _, _⟩ := repoLoop_frame env (getSettings w) (getRepositories w) 0 w 0 rfl
  simp [updateStats, passStats, h1, h2]

theorem checkAll_settings (env : Env) (w : World) :
    (checkAllRepositories env w).settings = w.settings := by
  by_cases hne : getRepositories w = []
  · unfold checkAllRepositories; simp [hne]
  · rw [checkAll_eq env w hne]
    obtain ⟨_, _, h3, _⟩ := repoLoop_frame env (getSettings w) (getRepositories w) 0 w 0 rfl
    simp [updateStats, h3]

theorem checkAll_repos (env : Env) (w : World)
    (hnd : ((getRepositories w).map (fun r => r.fullName)).Nodup) :
    getRepositories (checkAllRepositories env w) =
      entriesFrom env (getSettings w) 0 (getRepositories w) := by
  by_cases hne : getRepositories w = []
  · unfold checkAllRepositories; simp [hne, entriesFrom]
  · rw [checkAll_eq env w hne]
    have h := repoLoop_repos env (getSettings w) (getRepositories w) 0 w 0 [] rfl (by simp)
      (by simp) hnd
    simp only [List.nil_append] at h
    rw [← h]
    rfl

theorem checkAll_entry (env : Env) (w : World)
    (hnd : ((getRepositories w).map (fun r => r.fullName)).Nodup) (i : Nat) (r : Repo)
    (hr : (getRepositories w)[i]? = some r) :
    (getRepositories (checkAllRepositories env w))[i]? =
      some (finalEntry env (getSettings w) i r) := by
  rw [checkAll_repos env w hnd, entriesFrom_getElem?, hr]
  simp

/-! ## The outcome of one iteration, case by case -/

theorem foldl_mathMax2 (xs : List Nat) :
    ∀ a : Nat, ∃ m, List.foldl (fun acc n => mathMax2 acc (JsNum.fin n)) (JsNum.fin a) xs =
      JsNum.fin m ∧ (m = a ∨ m ∈ xs) ∧ a ≤ m ∧ ∀ x ∈ xs, x ≤ m := by
  induction xs with
  | nil => intro a; exact ⟨a, rfl, Or.inl rfl, Nat.le_refl _, by simp⟩
  | cons y ys ih =>
    intro a
    obtain ⟨m, h1, h2, h3, h4⟩ := ih (Nat.max a y)
    refine ⟨m, ?_, ?_, ?_, ?_⟩
    · simpa [List.foldl, mathMax2] using h1
    · rcases h2 with h2 | h2
      · rcases Nat.le_total a y with hay | hay
        · right; rw [h2]; simp [Nat.max_def, hay]
        · by_cases hya : a = y
          · right; rw [h2]; simp [Nat.max_def, hya]
          · left; rw [h2]; simp only [Nat.max_def]; rw [if_neg]; omega
      · right; exact List.mem_cons_of_mem _ h2
    · exact Nat.le_trans (Nat.le_max_left a y) h3
    · intro x hx
      rcases List.mem_cons.mp hx with hx | hx
      · rw [hx]; exact Nat.le_trans (Nat.le_max_right a y) h3
      · exact h4 x hx

theorem mathMax_spec (xs : List Nat) (hne : xs ≠ []) :
    ∃ m, mathMax xs = JsNum.fin m ∧ m ∈ xs ∧ ∀ x ∈ xs, x ≤ m := by
  cases xs with
  | nil => exact absurd rfl hne
  | cons y ys =>
    obtain ⟨m, h1, h2, h3, h4⟩ := foldl_mathMax2 ys y
    refine ⟨m, ?_, ?_, ?_⟩
    · simpa [mathMax, List.foldl, mathMax2] using h1
    · rcases h2 with h2 | h2
      · rw [h2]; exact List.mem_cons_self _ _
      · exact List.mem_cons_of_mem _ h2
    · intro x hx
      rcases List.mem_cons.mp hx with hx | hx
      · rw [hx]; exact h3
      · exact h4 x hx

theorem outcome_cases (env : Env) (settings : Settings) (i : Nat) (repo : Repo) :
    (∃ e, getNewIssuesResult repo.lastIssueNumber (fetchIssuesResult env i 0) = .error e ∧
      outcome env settings i repo = ⟨errorUpdates env i e,
        [Event.fetch repo.owner repo.repo (tokenOrNull settings.githubToken)], 0, some e⟩) ∨
    (∃ newIssues e,
      getNewIssuesResult repo.lastIssueNumber (fetchIssuesResult env i 0) = .ok newIssues ∧
      newIssues ≠ [] ∧ loopError env settings.notificationsEnabled i 0 newIssues = some e ∧
      outcome env settings i repo = ⟨errorUpdates env i e,
        Event.fetch repo.owner repo.repo (tokenOrNull settings.githubToken) ::
          loopEvents env settings.notificationsEnabled i repo 0 newIssues,
        newIssues.length, some e⟩) ∨
    (∃ newIssues,
      getNewIssuesResult repo.lastIssueNumber (fetchIssuesResult env i 0) = .ok newIssues ∧
      newIssues ≠ [] ∧ loopError env settings.notificationsEnabled i 0 newIssues = none ∧
      outcome env settings i repo = ⟨activeUpdates env i
          (some (mathMax2 (mathMax (newIssues.map (fun x => x.number)))
            (orZero repo.lastIssueNumber))),
        Event.fetch repo.owner repo.repo (tokenOrNull settings.githubToken) ::
          loopEvents env settings.notificationsEnabled i repo 0 newIssues,
        newIssues.length, none⟩) ∨
    (∃ e, getNewIssuesResult repo.lastIssueNumber (fetchIssuesResult env i 0) = .ok [] ∧
      fetchIssuesResult env i 1 = .error e ∧
      outcome env settings i repo = ⟨errorUpdates env i e,
        [Event.fetch repo.owner repo.repo (tokenOrNull settings.githubToken),
         Event.fetch repo.owner repo.repo (tokenOrNull settings.githubToken)], 0, some e⟩) ∨
    (∃ allIssues, getNewIssuesResult repo.lastIssueNumber (fetchIssuesResult env i 0) = .ok [] ∧
      fetchIssuesResult env i 1 = .ok allIssues ∧
      outcome env settings i repo = ⟨activeUpdates env i (orElse
          (if allIssues.length > 0 then some (mathMax (allIssues.map (fun x => x.number)))
           else repo.lastIssueNumber) repo.lastIssueNumber),
        [Event.fetch repo.owner repo.repo (tokenOrNull settings.githubToken),
         Event.fetch repo.owner repo.repo (tokenOrNull settings.githubToken)], 0, none⟩) := by
  unfold outcome
  cases hn : getNewIssuesResult repo.lastIssueNumber (fetchIssuesResult env i 0) with
  | error e => left; exact ⟨e, rfl, rfl⟩
  | ok newIssues =>
    right
    cases newIssues with
    | nil =>
      right; right
      cases hf : fetchIssuesResult env i 1 with
      | error e => left; exact ⟨e, rfl, rfl, by simp⟩
      | ok allIssues => right; exact ⟨allIssues, rfl, rfl, by simp⟩
    | cons x xs =>
      cases hl : loopError env settings.notificationsEnabled i 0 (x :: xs) with
      | some e => left; exact ⟨x :: xs, e, rfl, by simp, hl, by simp [hl]⟩
      | none => right; left; exact ⟨x :: xs, rfl, by simp, hl, by simp [hl]⟩

theorem fetchIssuesResult_ok (env : Env) (i k : Nat) (resp : Response)
    (h : env.fetch i k = .ok resp) (hok : resp.ok = true) :
    fetchIssuesResult env i k = .ok (resp.body.filter (fun issue => !issue.pull_request)) := by
  unfold fetchIssuesResult
  rw [h]
  simp [hok]

theorem outcome_error_updates (env : Env) (settings : Settings) (i : Nat) (repo : Repo)
    (e : String) (h : (outcome env settings i repo).error = some e) :
    (outcome env settings i repo).updates = errorUpdates env i e := by
  rcases outcome_cases env settings i repo with ⟨e1, _, ho⟩ | ⟨n, e1, _, _, _, ho⟩ |
    ⟨n, _, _, _, ho⟩ | ⟨e1, _, _, ho⟩ | ⟨a, _, _, ho⟩ <;> rw [ho] at h ⊢ <;> simp at h ⊢ <;>
    rw [h]

theorem finalEntry_status (env : Env) (settings : Settings) (i : Nat) (repo : Repo) :
    (finalEntry env settings i repo).status =
      (if (outcome env settings i repo).error = none then Status.active else Status.error) := by
  unfold finalEntry
  rcases outcome_cases env settings i repo with ⟨e1, _, ho⟩ | ⟨n, e1, _, _, _, ho⟩ |
    ⟨n, _, _, _, ho⟩ | ⟨e1, _, _, ho⟩ | ⟨a, _, _, ho⟩ <;> rw [ho] <;>
    simp [applyUpdates, errorUpdates, activeUpdates]

theorem eventsOf_append (name : String) (a b : List Event) :
    eventsOf name (a ++ b) = eventsOf name a ++ eventsOf name b := by
  simp [eventsOf]

theorem eventsOf_loopEvents_other (env : Env) (enabled : Bool) (i : Nat) (repo : Repo)
    (name : String) (h : repo.fullName ≠ name) (xs : List Issue) :
    ∀ j, eventsOf name (loopEvents env enabled i repo j xs) = [] := by
  induction xs with
  | nil => intro j; rfl
  | cons x rest ih =>
    intro j
    unfold loopEvents
    rw [eventsOf_append]
    have h1 : eventsOf name (sendEvents env enabled i j repo x) = [] := by
      unfold sendEvents eventsOf
      cases enabled <;> cases env.create i j <;> simp [h]
    rw [h1]
    cases sendError env enabled i j with
    | some e => rfl
    | none =>
      have := ih (j + 1)
      simp only [eventsOf] at this ⊢
      simp [recordFor, h, this]

theorem eventsOf_loopEvents_ok (env : Env) (enabled : Bool) (i : Nat) (repo : Repo)
    (xs : List Issue) :
    ∀ j, loopError env enabled i j xs = none →
      eventsOf repo.fullName (loopEvents env enabled i repo j xs) = notices env i repo j xs := by
  induction xs with
  | nil => intro j _; rfl
  | cons x rest ih =>
    intro j hl
    unfold loopError at hl
    unfold loopEvents notices
    rw [eventsOf_append]
    have h1 : eventsOf repo.fullName (sendEvents env enabled i j repo x) =
        [Event.send repo.fullName x.number] := by
      unfold sendEvents eventsOf
      cases enabled <;> cases env.create i j <;> simp
    rw [h1]
    cases hs : sendError env enabled i j with
    | some e => rw [hs] at hl; simp at hl
    | none =>
      rw [hs] at hl
      have := ih (j + 1) hl
      simp only [eventsOf] at this ⊢
      simp [recordFor, this]

theorem eventsOf_outcome_other (env : Env) (settings : Settings) (i : Nat) (repo : Repo)
    (name : String) (h : repo.fullName ≠ name) :
    eventsOf name (outcome env settings i repo).events = [] := by
  rcases outcome_cases env settings i repo with ⟨e1, _, ho⟩ | ⟨n, e1, _, _, _, ho⟩ |
    ⟨n, _, _, _, ho⟩ | ⟨e1, _, _, ho⟩ | ⟨a, _, _, ho⟩ <;> rw [ho] <;> simp only []
  · rfl
  · have := eventsOf_loopEvents_other env settings.notificationsEnabled i repo name h n 0
    simp only [eventsOf] at this ⊢
    simp [this]
  · have := eventsOf_loopEvents_other env settings.notificationsEnabled i repo name h n 0
    simp only [eventsOf] at this ⊢
    simp [this]
  · rfl
  · rfl

theorem eventsOf_eventsFrom_other (env : Env) (settings : Settings) (name : String)
    (l : List Repo) :
    ∀ k, (∀ r ∈ l, r.fullName ≠ name) → eventsOf name (eventsFrom env settings k l) = [] := by
  induction l with
  | nil => intro k _; rfl
  | cons r rs ih =>
    intro k h
    unfold eventsFrom
    rw [eventsOf_append, eventsOf_outcome_other env settings k r name (h r (List.mem_cons_self _ _)),
      ih (k + 1) (fun x hx => h x (List.mem_cons_of_mem _ hx))]
    rfl

theorem eventsOf_eventsFrom_at (env : Env) (settings : Settings) (l : List Repo) :
    ∀ (k i : Nat) (r : Repo), (l.map (fun x => x.fullName)).Nodup → l[i]? = some r →
      eventsOf r.fullName (eventsFrom env settings k l) =
        eventsOf r.fullName (outcome env settings (k + i) r).events := by
  induction l with
  | nil => intro k i r _ h; simp at h
  | cons x xs ih =>
    intro k i r hnd h
    rw [List.map_cons, List.nodup_cons] at hnd
    unfold eventsFrom
    rw [eventsOf_append]
    cases i with
    | zero =>
      simp only [List.getElem?_cons_zero, Option.some.injEq] at h
      subst h
      rw [eventsOf_eventsFrom_other env settings x.fullName xs (k + 1)]
      · simp
      · intro y hy heq
        exact hnd.1 (List.mem_map.mpr ⟨y, hy, heq⟩)
    | succ n =>
      simp only [List.getElem?_cons_succ] at h
      have hne : x.fullName ≠ r.fullName := by
        intro heq
        apply hnd.1
        rw [heq]
        exact List.mem_map.mpr ⟨r, List.getElem?_mem h, rfl⟩
      rw [eventsOf_outcome_other env settings k x r.fullName hne, ih (k + 1) n r hnd.2 h]
      have hk : k + 1 + n = k + (n + 1) := by omega
      rw [hk]
      rfl

theorem passEvents_eq (env : Env) (w : World) (hne : getRepositories w ≠ []) :
    passEvents env w = eventsFrom env (getSettings w) 0 (getRepositories w) ++
      [Event.statsWrite (passStats env w)] := by
  unfold passEvents
  rw [checkAll_trace env w hne, List.append_assoc, List.drop_left]

theorem passEvents_nil (env : Env) (w : World) (h : getRepositories w = []) :
    passEvents env w = [] := by
  unfold passEvents checkAllRepositories
  simp [h]

theorem eventsOf_passEvents (env : Env) (w : World) (name : String) :
    eventsOf name (passEvents env w) =
      eventsOf name (eventsFrom env (getSettings w) 0 (getRepositories w)) := by
  by_cases hne : getRepositories w = []
  · rw [passEvents_nil env w hne, hne]; rfl
  · rw [passEvents_eq env w hne, eventsOf_append]
    simp [eventsOf]

theorem eventsOf_pass_at (env : Env) (w : World)
    (hnd : ((getRepositories w).map (fun r => r.fullName)).Nodup) (i : Nat) (r : Repo)
    (hr : (getRepositories w)[i]? = some r) :
    eventsOf r.fullName (passEvents env w) =
      eventsOf r.fullName (outcome env (getSettings w) i r).events := by
  rw [eventsOf_passEvents, eventsOf_eventsFrom_at env (getSettings w) _ 0 i r hnd hr]
  simp

/-! ## Two passes in a row -/

theorem getNewIssuesResult_ok (wm : Option JsNum) (page : List Issue) :
    getNewIssuesResult wm (.ok page) = .ok (newOf wm page) := by
  by_cases h : (!truthy wm) = true <;> simp [getNewIssuesResult, newOf, h]

theorem loopError_none (env : Env) (enabled : Bool) (i : Nat)
    (h : ∀ j, env.create i j = none) (xs : List Issue) :
    ∀ j, loopError env enabled i j xs = none := by
  induction xs with
  | nil => intro j; rfl
  | cons x rest ih =>
    intro j
    unfold loopError
    have : sendError env enabled i j = none := by
      unfold sendError; rw [h j]; simp
    rw [this]
    exact ih (j + 1)

theorem settle_final (env : Env) (settings : Settings) (i : Nat) (r : Repo)
    (h1 : fetchIssuesResult env i 1 = fetchIssuesResult env i 0)
    (hq : (∀ j, env.create i j = none) ∨ newIssuesAt env i r = []) :
    ((finalEntry env settings i r).lastIssueNumber, (finalEntry env settings i r).status,
      (outcome env settings i r).found) = settle (fetchIssuesResult env i 0) r.lastIssueNumber := by
  unfold newIssuesAt at hq
  cases hF : fetchIssuesResult env i 0 with
  | error e =>
    have hs : settle (.error e) r.lastIssueNumber = (r.lastIssueNumber, Status.error, 0) := rfl
    rw [hs]
    unfold finalEntry
    rcases outcome_cases env settings i r with ⟨e1, hn, ho⟩ | ⟨n, e1, hn, _, hl, ho⟩ |
      ⟨n, hn, _, hl, ho⟩ | ⟨e1, hn, _, ho⟩ | ⟨a, hn, _, ho⟩ <;> rw [hF] at hn <;>
      simp [getNewIssuesResult] at hn
    rw [ho]
    simp [applyUpdates, errorUpdates]
  | ok page =>
    rw [hF] at h1 hq
    rw [getNewIssuesResult_ok] at hq
    simp only [] at hq
    unfold finalEntry settle
    simp only []
    rcases outcome_cases env settings i r with ⟨e1, hn, ho⟩ | ⟨n, e1, hn, hne, hl, ho⟩ |
      ⟨n, hn, hne, hl, ho⟩ | ⟨e1, hn, hf, ho⟩ | ⟨a, hn, hf, ho⟩ <;>
      rw [hF, getNewIssuesResult_ok] at hn
    · cases hn
    · injection hn with hn
      rcases hq with hq | hq
      · rw [loopError_none env _ i hq n 0] at hl; cases hl
      · rw [hn] at hq; exact absurd hq hne
    · injection hn with hn
      rw [← hn] at hne
      rw [ho, if_pos hne, ← hn]
      simp [applyUpdates, activeUpdates]
    · rw [h1] at hf; cases hf
    · injection hn with hn
      rw [h1] at hf
      injection hf with hf
      have hnn : ¬ newOf r.lastIssueNumber page ≠ [] := by simp [hn]
      rw [ho, if_neg hnn, ← hf]
      simp [applyUpdates, activeUpdates]

theorem mathMax_eq_of (xs : List Nat) (m : Nat) (hm : m ∈ xs) (hmax : ∀ x ∈ xs, x ≤ m) :
    mathMax xs = JsNum.fin m := by
  obtain ⟨m2, h1, h2, h3⟩ := mathMax_spec xs (List.ne_nil_of_mem hm)
  have : m2 = m := Nat.le_antisymm (hmax m2 h2) (h3 m hm)
  rw [h1, this]

theorem newOf_max (page : List Issue) (m : Nat)
    (hm : mathMax (page.map (fun x => x.number)) = JsNum.fin m) (hne : page ≠ []) :
    newOf (some (JsNum.fin m)) page = [] := by
  obtain ⟨m2, h1, _, h3⟩ := mathMax_spec (page.map (fun x => x.number)) (by simpa using hne)
  rw [hm] at h1
  injection h1 with h1
  unfold newOf
  split
  · rfl
  · rw [List.filter_eq_nil_iff]
    intro x hx
    have := h3 x.number (List.mem_map.mpr ⟨x, hx, rfl⟩)
    simp [numGt]
    omega

theorem settle_max (e : Except String (List Issue)) (page : List Issue) (m : Nat)
    (he : e = .ok page)
    (hm : mathMax (page.map (fun x => x.number)) = JsNum.fin m) (hne : page ≠ []) :
    settle e (some (JsNum.fin m)) = (some (JsNum.fin m), Status.active, 0) := by
  subst he
  unfold settle
  simp only [newOf_max page m hm hne, ne_eq, not_true_eq_false, if_false]
  rw [if_pos (List.length_pos.mpr hne), hm]
  simp [orElse]

theorem settle_new (wm : Option JsNum) (page : List Issue) (hnew : newOf wm page ≠ []) :
    mathMax2 (mathMax ((newOf wm page).map (fun x => x.number))) (orZero wm) =
      mathMax (page.map (fun x => x.number)) := by
  have hne2 : (newOf wm page).map (fun x => x.number) ≠ [] := by simpa using hnew
  obtain ⟨m1, h1, h2, h3⟩ := mathMax_spec _ hne2
  obtain ⟨x1, hx1, hxm⟩ := List.mem_map.mp h2
  cases wm with
  | none => simp [newOf, truthy] at hnew
  | some v =>
    cases v with
    | negInf =>
      have hall : newOf (some JsNum.negInf) page = page := by
        simp [newOf, truthy, JsNum.truthy, numGt]
      rw [hall] at h1 ⊢
      rw [h1]
      simp [orZero, JsNum.truthy, mathMax2]
    | fin n =>
      have ht : truthy (some (JsNum.fin n)) = true := by
        by_contra hc
        simp [newOf, hc] at hnew
      have hn0 : n ≠ 0 := by simpa [truthy, JsNum.truthy] using ht
      have hmem : ∀ x, x ∈ newOf (some (JsNum.fin n)) page ↔ x ∈ page ∧ n < x.number := by
        intro x
        simp [newOf, ht, numGt, List.mem_filter]
      have hx1p := (hmem x1).mp hx1
      have hmaxp : mathMax (page.map (fun x => x.number)) = JsNum.fin m1 := by
        apply mathMax_eq_of
        · exact List.mem_map.mpr ⟨x1, hx1p.1, hxm⟩
        · intro y hy
          obtain ⟨x, hx, hxy⟩ := List.mem_map.mp hy
          by_cases hgt : n < x.number
          · exact h3 y (List.mem_map.mpr ⟨x, (hmem x).mpr ⟨hx, hgt⟩, hxy⟩)
          · omega
      rw [h1, hmaxp]
      have hle : n ≤ m1 := by omega
      simp [orZero, JsNum.truthy, hn0, mathMax2, Nat.max_def, hle]

theorem settle_idem (answer : Except String (List Issue)) (wm : Option JsNum) :
    settle answer (settle answer wm).1 =
      ((settle answer wm).1, (settle answer wm).2.1, 0) ∧
    (match getNewIssuesResult (settle answer wm).1 answer with
      | .ok l => l
      | .error _ => []) = [] := by
  cases answer with
  | error e => exact ⟨rfl, rfl⟩
  | ok page =>
    simp only [getNewIssuesResult_ok]
    by_cases hnew : newOf wm page ≠ []
    · have hpne : page ≠ [] := by
        intro h; rw [h] at hnew; simp [newOf] at hnew
      obtain ⟨m, hm, _, _⟩ := mathMax_spec (page.map (fun x => x.number)) (by simpa using hpne)
      have h1 : settle (.ok page) wm = (some (JsNum.fin m), Status.active, (newOf wm page).length) := by
        unfold settle
        simp only []
        rw [if_pos hnew, settle_new wm page hnew, hm]
      rw [h1]
      exact ⟨settle_max _ page m rfl hm hpne, newOf_max page m hm hpne⟩
    · have hnil : newOf wm page = [] := by simpa using hnew
      by_cases hpne : page = []
      · subst hpne
        have h1 : settle (.ok []) wm = (wm, Status.active, 0) := by
          unfold settle
          simp [newOf, orElse]
        rw [h1]
        exact ⟨h1, by simp [newOf]⟩
      · obtain ⟨m, hm, _, _⟩ := mathMax_spec (page.map (fun x => x.number)) (by simpa using hpne)
        by_cases hm0 : m = 0
        · have h1 : settle (.ok page) wm = (wm, Status.active, 0) := by
            unfold settle
            simp only []
            rw [if_neg hnew, if_pos (List.length_pos.mpr hpne), hm]
            simp [orElse, truthy, JsNum.truthy, hm0]
          rw [h1]
          exact ⟨h1, hnil⟩
        · have h1 : settle (.ok page) wm = (some (JsNum.fin m), Status.active, 0) := by
            unfold settle
            simp only []
            rw [if_neg hnew, if_pos (List.length_pos.mpr hpne), hm]
            simp [orElse, truthy, JsNum.truthy, hm0]
          rw [h1]
          exact ⟨settle_max _ page m rfl hm hpne, newOf_max page m hm hpne⟩

theorem finalEntry_fullName (env : Env) (settings : Settings) (i : Nat) (r : Repo) :
    (finalEntry env settings i r).fullName = r.fullName := rfl

theorem names_entriesFrom (env : Env) (settings : Settings) (l : List Repo) :
    ∀ k, (entriesFrom env settings k l).map (fun r => r.fullName) =
      l.map (fun r => r.fullName) := by
  induction l with
  | nil => intro k; rfl
  | cons x xs ih => intro k; simp [entriesFrom, finalEntry_fullName, ih]

theorem second_step (env env2 : Env) (settings : Settings) (i : Nat) (r : Repo)
    (hconst : ∀ k, env.fetch i k = env.fetch i 0)
    (hsame : ∀ k, env2.fetch i k = env.fetch i k)
    (hcreate : ∀ j, env.create i j = none) :
    (finalEntry env2 settings i (finalEntry env settings i r)).lastIssueNumber =
      (finalEntry env settings i r).lastIssueNumber ∧
    (finalEntry env2 settings i (finalEntry env settings i r)).status =
      (finalEntry env settings i r).status ∧
    (outcome env2 settings i (finalEntry env settings i r)).found = 0 := by
  have hF1 : fetchIssuesResult env i 1 = fetchIssuesResult env i 0 := by
    unfold fetchIssuesResult; rw [hconst 1]
  have hG0 : fetchIssuesResult env2 i 0 = fetchIssuesResult env i 0 := by
    unfold fetchIssuesResult; rw [hsame 0]
  have hG1 : fetchIssuesResult env2 i 1 = fetchIssuesResult env2 i 0 := by
    unfold fetchIssuesResult; rw [hsame 1, hsame 0, hconst 1]
  have h1 := settle_final env settings i r hF1 (Or.inl hcreate)
  obtain ⟨hi1, hi2⟩ := settle_idem (fetchIssuesResult env i 0) r.lastIssueNumber
  rw [← h1] at hi1 hi2
  simp only [] at hi1 hi2
  have hq : newIssuesAt env2 i (finalEntry env settings i r) = [] := by
    unfold newIssuesAt; rw [hG0]; exact hi2
  have h2 := settle_final env2 settings i (finalEntry env settings i r) hG1 (Or.inr hq)
  rw [hG0, hi1] at h2
  simp only [Prod.mk.injEq] at h2
  exact h2

theorem second_entries (env env2 : Env) (settings : Settings)
    (hconst : ∀ i k, env.fetch i k = env.fetch i 0)
    (hsame : ∀ i k, env2.fetch i k = env.fetch i k)
    (hcreate : ∀ i j, env.create i j = none) (l : List Repo) :
    ∀ k, (entriesFrom env2 settings k (entriesFrom env settings k l)).map
          (fun r => r.lastIssueNumber) =
        (entriesFrom env settings k l).map (fun r => r.lastIssueNumber) ∧
      (entriesFrom env2 settings k (entriesFrom env settings k l)).map (fun r => r.status) =
        (entriesFrom env settings k l).map (fun r => r.status) ∧
      foundFrom env2 settings k (entriesFrom env settings k l) = 0 := by
  induction l with
  | nil => intro k; exact ⟨rfl, rfl, rfl⟩
  | cons x xs ih =>
    intro k
    obtain ⟨h1, h2, h3⟩ := second_step env env2 settings k x (hconst k) (hsame k) (hcreate k)
    obtain ⟨g1, g2, g3⟩ := ih (k + 1)
    simp only [entriesFrom, foundFrom, List.map_cons]
    rw [h1, h2, h3, g1, g2, g3]
    exact ⟨rfl, rfl, rfl⟩

/-! ## The claims -/

/-- C1 (watermark monotonicity) fails on the code: with stored watermark 5 and
a source whose page of open issues is `[#3, #1]`, the pass stores watermark 3,
which is below 5. -/
theorem C1_watermark_lowered :
    watermarks (checkAllRepositories (mkEnv (fun _ _ => [mkIssue 3, mkIssue 1]))
      (mkWorld [mkRepo "octo" "demo" (some (JsNum.fin 5))])) = [some (JsNum.fin 3)] := by
  decide

/-- C4 (post-pass watermark is `max(W, largest notified)`) fails on the code:
with watermark 5 and page `[#4, #2]` nothing is notified and the pass stores
4; with watermark 5, first answer `[#5, #3]` and second answer `[#8, #5, #3]`
nothing is notified and the pass stores 8. -/
theorem C4_watermark_overwritten :
    (watermarks (checkAllRepositories (mkEnv (fun _ _ => [mkIssue 4, mkIssue 2]))
        (mkWorld [mkRepo "octo" "demo" (some (JsNum.fin 5))])) = [some (JsNum.fin 4)] ∧
      eventsOf "octo/demo" (passEvents (mkEnv (fun _ _ => [mkIssue 4, mkIssue 2]))
        (mkWorld [mkRepo "octo" "demo" (some (JsNum.fin 5))])) = []) ∧
    (watermarks (checkAllRepositories
        (mkEnv (fun _ k => if k = 0 then [mkIssue 5, mkIssue 3]
          else [mkIssue 8, mkIssue 5, mkIssue 3]))
        (mkWorld [mkRepo "octo" "demo" (some (JsNum.fin 5))])) = [some (JsNum.fin 8)] ∧
      eventsOf "octo/demo" (passEvents
        (mkEnv (fun _ k => if k = 0 then [mkIssue 5, mkIssue 3]
          else [mkIssue 8, mkIssue 5, mkIssue 3]))
        (mkWorld [mkRepo "octo" "demo" (some (JsNum.fin 5))])) = []) := by
  decide

/-- C5 (the log keeps the 100 most recent records) fails on the code: after
150 insertions into an empty log the stored log holds 51 records, those of
the notifications 150 down to 100. -/
theorem C5_log_keeps_51 :
    (storedHistory (insertMany 150 (mkWorld []))).map (fun r => r.issueNumber) =
      (List.range' 100 51).reverse := by
  decide

theorem getNewIssuesResult_fin (W : Nat) (hW0 : W ≠ 0) (fetched : List Issue) :
    getNewIssuesResult (some (JsNum.fin W)) (.ok fetched) =
      .ok (fetched.filter (fun x => decide (x.number > W))) := by
  simp [getNewIssuesResult, truthy, JsNum.truthy, hW0, numGt]

theorem error_none_of_active (env : Env) (w : World)
    (hnd : ((getRepositories w).map (fun x => x.fullName)).Nodup) (i : Nat) (r : Repo)
    (hr : (getRepositories w)[i]? = some r)
    (hactive : ∃ e, (getRepositories (checkAllRepositories env w))[i]? = some e ∧
      e.status = Status.active) :
    (outcome env (getSettings w) i r).error = none := by
  obtain ⟨e, he, hst⟩ := hactive
  rw [checkAll_entry env w hnd i r hr] at he
  injection he with he
  rw [← he, finalEntry_status] at hst
  by_contra hc
  simp [hc] at hst

/-- C2, counterexample: with the stored watermark 0 (a non-null integer) and
the fetched issue #1, the pass completes with status active and makes no call
of `sendNotification` and appends no record, although 1 > 0. -/
theorem C2_zero_watermark_counterexample :
    eventsOf "octo/demo" (passEvents (demoEnv [1]) (demoWorld (some (JsNum.fin 0)))) = [] ∧
    statuses (checkAllRepositories (demoEnv [1]) (demoWorld (some (JsNum.fin 0)))) =
      [Status.active] ∧
    (mkIssue 1).number > 0 := by
  decide

/-- C2, amended: for a repository at position `i` whose stored watermark is a
non-null integer `W` other than 0 and whose processing ends without error
(status active), the calls of `sendNotification` and `Storage.addNotification`
made for it are exactly one of each, in order, for every fetched
non-pull-request issue with number > `W`, and none for the others. -/
theorem C2_one_notice_per_new_issue (env : Env) (w : World) (i : Nat) (r : Repo) (W : Nat)
    (fetched : List Issue)
    (hnd : ((getRepositories w).map (fun x => x.fullName)).Nodup)
    (hr : (getRepositories w)[i]? = some r)
    (hW : r.lastIssueNumber = some (JsNum.fin W)) (hW0 : W ≠ 0)
    (hfetch : fetchIssuesResult env i 0 = .ok fetched)
    (hactive : ∃ e, (getRepositories (checkAllRepositories env w))[i]? = some e ∧
      e.status = Status.active) :
    eventsOf r.fullName (passEvents env w) =
      notices env i r 0 (fetched.filter (fun x => decide (x.number > W))) := by
  have herr := error_none_of_active env w hnd i r hr hactive
  rw [eventsOf_pass_at env w hnd i r hr]
  have hnew := getNewIssuesResult_fin W hW0 fetched
  rcases outcome_cases env (getSettings w) i r with ⟨e1, hn, ho⟩ | ⟨n, e1, hn, _, _, ho⟩ |
    ⟨n, hn, _, hl, ho⟩ | ⟨e1, hn, _, ho⟩ | ⟨a, hn, _, ho⟩
  · rw [ho] at herr; simp at herr
  · rw [ho] at herr; simp at herr
  · rw [hW, hfetch, hnew] at hn
    injection hn with hn
    rw [ho, hn]
    have := eventsOf_loopEvents_ok env (getSettings w).notificationsEnabled i r n 0 hl
    simp only [eventsOf] at this ⊢
    simp [this]
  · rw [ho] at herr; simp at herr
  · rw [hW, hfetch, hnew] at hn
    injection hn with hn
    rw [ho, hn]
    rfl

/-- C2, witness: watermark 5 and fetched issues `[#7, #5, #3, #1]`. -/
theorem C2_one_notice_per_new_issue_witness :
    eventsOf "octo/demo" (passEvents (demoEnv [7, 5, 3, 1]) (demoWorld (some (JsNum.fin 5)))) =
      notices (demoEnv [7, 5, 3, 1]) 0 (mkRepo "octo" "demo" (some (JsNum.fin 5))) 0
        ([mkIssue 7, mkIssue 5, mkIssue 3, mkIssue 1].filter (fun x => decide (x.number > 5))) :=
  C2_one_notice_per_new_issue (demoEnv [7, 5, 3, 1]) (demoWorld (some (JsNum.fin 5))) 0
    (mkRepo "octo" "demo" (some (JsNum.fin 5))) 5 [mkIssue 7, mkIssue 5, mkIssue 3, mkIssue 1]
    (by decide) rfl rfl (by decide) rfl ⟨_, rfl, rfl⟩

/-- C3 (baseline pass): for a repository at position `i` whose stored
watermark is null and whose two requests are answered successfully, the pass
makes no call of `sendNotification` and appends no record for it, stores
status active, and stores as watermark the largest number among the
non-pull-request issues of the answer (issue numbers being positive), or
leaves it null when there is none. -/
theorem C3_baseline (env : Env) (w : World) (i : Nat) (r : Repo) (resp0 resp1 : Response)
    (hnd : ((getRepositories w).map (fun x => x.fullName)).Nodup)
    (hr : (getRepositories w)[i]? = some r)
    (hnull : r.lastIssueNumber = none)
    (h0 : env.fetch i 0 = .ok resp0) (hok0 : resp0.ok = true)
    (h1 : env.fetch i 1 = .ok resp1) (hok1 : resp1.ok = true)
    (hpos : ∀ x ∈ resp1.body, 0 < x.number) :
    ∃ e, (getRepositories (checkAllRepositories env w))[i]? = some e ∧
      e.status = Status.active ∧
      eventsOf r.fullName (passEvents env w) = [] ∧
      (resp1.body.filter (fun x => !x.pull_request) = [] → e.lastIssueNumber = none) ∧
      (resp1.body.filter (fun x => !x.pull_request) ≠ [] →
        ∃ m, e.lastIssueNumber = some (JsNum.fin m) ∧
          (∃ x ∈ resp1.body.filter (fun x => !x.pull_request), x.number = m) ∧
          ∀ x ∈ resp1.body.filter (fun x => !x.pull_request), x.number ≤ m) := by
  refine ⟨finalEntry env (getSettings w) i r, checkAll_entry env w hnd i r hr, ?_⟩
  rw [eventsOf_pass_at env w hnd i r hr, finalEntry_status]
  have hf0 := fetchIssuesResult_ok env i 0 resp0 h0 hok0
  have hf1 := fetchIssuesResult_ok env i 1 resp1 h1 hok1
  have hnew : getNewIssuesResult r.lastIssueNumber (fetchIssuesResult env i 0) = .ok [] := by
    rw [hnull, hf0]; rfl
  unfold finalEntry
  rcases outcome_cases env (getSettings w) i r with ⟨e1, hn, ho⟩ | ⟨n, e1, hn, hne, _, ho⟩ |
    ⟨n, hn, hne, hl, ho⟩ | ⟨e1, hn, hf, ho⟩ | ⟨a, hn, hf, ho⟩
  · rw [hnew] at hn; cases hn
  · rw [hnew] at hn; injection hn with hn; exact absurd hn.symm hne
  · rw [hnew] at hn; injection hn with hn; exact absurd hn.symm hne
  · rw [hf1] at hf; cases hf
  · rw [hf1] at hf
    injection hf with hf
    rw [ho, ← hf, hnull]
    refine ⟨rfl, rfl, ?_, ?_⟩
    · intro hnil
      simp [applyUpdates, activeUpdates, hnil, orElse, truthy]
    · intro hne
      have hne2 : (resp1.body.filter (fun x => !x.pull_request)).map (fun x => x.number) ≠ [] := by
        simpa using hne
      obtain ⟨m, hm, hmem, hmax⟩ := mathMax_spec _ hne2
      obtain ⟨x, hx, hxm⟩ := List.mem_map.mp hmem
      have hmpos : 0 < m := by
        rw [← hxm]; exact hpos x (List.mem_of_mem_filter hx)
      have hlen : (resp1.body.filter (fun x => !x.pull_request)).length > 0 :=
        List.length_pos.mpr hne
      refine ⟨m, ?_, ⟨x, hx, hxm⟩, fun y hy => hmax _ (List.mem_map.mpr ⟨y, hy, rfl⟩)⟩
      simp only [applyUpdates, activeUpdates, Option.getD_some]
      rw [if_pos hlen, hm]
      have hm0 : m ≠ 0 := by omega
      simp [orElse, truthy, JsNum.truthy, hm0]

/-- C3, witness: fetched `[#5, #3, #1]` gives no notification, watermark 5,
status active. -/
theorem C3_baseline_witness :
    ∃ e, (getRepositories (checkAllRepositories (demoEnv [5, 3, 1]) (demoWorld none)))[0]? =
        some e ∧
      e.status = Status.active ∧
      eventsOf (mkRepo "octo" "demo" none).fullName
        (passEvents (demoEnv [5, 3, 1]) (demoWorld none)) = [] ∧
      (([5, 3, 1].map mkIssue).filter (fun x => !x.pull_request) = [] →
        e.lastIssueNumber = none) ∧
      (([5, 3, 1].map mkIssue).filter (fun x => !x.pull_request) ≠ [] →
        ∃ m, e.lastIssueNumber = some (JsNum.fin m) ∧
          (∃ x ∈ ([5, 3, 1].map mkIssue).filter (fun x => !x.pull_request), x.number = m) ∧
          ∀ x ∈ ([5, 3, 1].map mkIssue).filter (fun x => !x.pull_request), x.number ≤ m) :=
  C3_baseline (demoEnv [5, 3, 1]) (demoWorld none) 0 (mkRepo "octo" "demo" none)
    { status := 200, body := [5, 3, 1].map mkIssue } { status := 200, body := [5, 3, 1].map mkIssue }
    (by decide) rfl rfl rfl rfl rfl rfl (by decide)

theorem loopEvents_owned (env : Env) (enabled : Bool) (i : Nat) (repo : Repo) (xs : List Issue) :
    ∀ j, ∀ ev ∈ loopEvents env enabled i repo j xs, ownedBy env repo ev := by
  induction xs with
  | nil => intro j ev h; simp [loopEvents] at h
  | cons x rest ih =>
    intro j ev h
    unfold loopEvents at h
    rcases List.mem_append.mp h with h | h
    · unfold sendEvents at h
      rcases List.mem_cons.mp h with h | h
      · exact Or.inr (Or.inl ⟨_, h⟩)
      · cases enabled <;> cases hc : env.create i j <;> simp [hc] at h
        exact Or.inr (Or.inr (Or.inl ⟨x, h⟩))
    · cases hs : sendError env enabled i j with
      | some e => rw [hs] at h; simp at h
      | none =>
        rw [hs] at h
        rcases List.mem_cons.mp h with h | h
        · exact Or.inr (Or.inr (Or.inr ⟨_, h, rfl⟩))
        · exact ih (j + 1) ev h

theorem outcome_events_owned (env : Env) (settings : Settings) (i : Nat) (repo : Repo) :
    ∀ ev ∈ (outcome env settings i repo).events, ownedBy env repo ev := by
  intro ev h
  rcases outcome_cases env settings i repo with ⟨e1, _, ho⟩ | ⟨n, e1, _, _, _, ho⟩ |
    ⟨n, _, _, _, ho⟩ | ⟨e1, _, _, ho⟩ | ⟨a, _, _, ho⟩ <;> rw [ho] at h <;> simp only [] at h
  · simp at h; exact Or.inl ⟨_, h⟩
  · rcases List.mem_cons.mp h with h | h
    · exact Or.inl ⟨_, h⟩
    · exact loopEvents_owned env _ i repo n 0 ev h
  · rcases List.mem_cons.mp h with h | h
    · exact Or.inl ⟨_, h⟩
    · exact loopEvents_owned env _ i repo n 0 ev h
  · simp at h; exact Or.inl ⟨_, h⟩
  · simp at h; exact Or.inl ⟨_, h⟩

theorem eventsFrom_owned (env : Env) (settings : Settings) (l : List Repo) :
    ∀ k, ∀ ev ∈ eventsFrom env settings k l, ∃ r ∈ l, ownedBy env r ev := by
  induction l with
  | nil => intro k ev h; simp [eventsFrom] at h
  | cons x xs ih =>
    intro k ev h
    unfold eventsFrom at h
    rcases List.mem_append.mp h with h | h
    · exact ⟨x, List.mem_cons_self _ _, outcome_events_owned env settings k x ev h⟩
    · obtain ⟨r, hr, ho⟩ := ih (k + 1) ev h
      exact ⟨r, List.mem_cons_of_mem _ hr, ho⟩

theorem outcome_found (env : Env) (settings : Settings) (i : Nat) (repo : Repo) :
    (outcome env settings i repo).found = (newIssuesAt env i repo).length := by
  unfold newIssuesAt
  rcases outcome_cases env settings i repo with ⟨e1, hn, ho⟩ | ⟨n, e1, hn, _, _, ho⟩ |
    ⟨n, hn, _, _, ho⟩ | ⟨e1, hn, _, ho⟩ | ⟨a, hn, _, ho⟩ <;> rw [ho, hn] <;> rfl

theorem foundFrom_eq (env : Env) (settings : Settings) (l : List Repo) :
    ∀ k, foundFrom env settings k l = newIssuesTotal env k l := by
  induction l with
  | nil => intro k; rfl
  | cons x xs ih => intro k; simp [foundFrom, newIssuesTotal, outcome_found, ih]

/-- C6, counterexample: on a store with the empty list the pass returns before
the loop; it writes no statistics, so `totalChecks` stays 0. -/
theorem C6_empty_list_counterexample :
    (checkAllRepositories (demoEnv []) (mkWorld [])).stats = none ∧
    passEvents (demoEnv []) (mkWorld []) = [] ∧
    (getStats (checkAllRepositories (demoEnv []) (mkWorld []))).totalChecks = 0 := by
  decide

/-- C6, amended: for every non-empty stored list and every combination of
per-repository successes and failures, one pass writes the statistics exactly
once, after all events of the per-repository loop, with `totalChecks`
increased by 1 and `totalIssuesFound` increased by the number of new issues
found across all repositories. -/
theorem C6_stats_written_once (env : Env) (w : World) (hne : getRepositories w ≠ []) :
    ∃ evs, passEvents env w =
        evs ++ [Event.statsWrite (getStats (checkAllRepositories env w))] ∧
      (∀ st, Event.statsWrite st ∉ evs) ∧
      (getStats (checkAllRepositories env w)).totalChecks = (getStats w).totalChecks + 1 ∧
      (getStats (checkAllRepositories env w)).totalIssuesFound =
        (getStats w).totalIssuesFound + newIssuesTotal env 0 (getRepositories w) := by
  have hst : getStats (checkAllRepositories env w) = passStats env w := by
    unfold getStats; rw [checkAll_stats env w hne]; rfl
  refine ⟨eventsFrom env (getSettings w) 0 (getRepositories w), ?_, ?_, ?_, ?_⟩
  · rw [hst]; exact passEvents_eq env w hne
  · intro st hmem
    obtain ⟨r, _, ho⟩ := eventsFrom_owned env (getSettings w) _ 0 _ hmem
    rcases ho with ⟨_, h⟩ | ⟨_, h⟩ | ⟨_, h⟩ | ⟨_, h, _⟩ <;> cases h
  · rw [hst]; rfl
  · rw [hst, ← foundFrom_eq env (getSettings w)]; rfl

/-- C6, witness: the store with the single repository `octo/demo`. -/
theorem C6_stats_written_once_witness :
    ∃ evs, passEvents (demoEnv [7, 5]) (demoWorld (some (JsNum.fin 5))) =
        evs ++ [Event.statsWrite (getStats (checkAllRepositories (demoEnv [7, 5])
          (demoWorld (some (JsNum.fin 5)))))] ∧
      (∀ st, Event.statsWrite st ∉ evs) ∧
      (getStats (checkAllRepositories (demoEnv [7, 5])
        (demoWorld (some (JsNum.fin 5))))).totalChecks =
        (getStats (demoWorld (some (JsNum.fin 5)))).totalChecks + 1 ∧
      (getStats (checkAllRepositories (demoEnv [7, 5])
        (demoWorld (some (JsNum.fin 5))))).totalIssuesFound =
        (getStats (demoWorld (some (JsNum.fin 5)))).totalIssuesFound +
          newIssuesTotal (demoEnv [7, 5]) 0 (getRepositories (demoWorld (some (JsNum.fin 5)))) :=
  C6_stats_written_once (demoEnv [7, 5]) (demoWorld (some (JsNum.fin 5))) (by decide)

theorem fetchIssuesResult_congr (env env2 : Env) (i k : Nat)
    (h : env.fetch i k = env2.fetch i k) :
    fetchIssuesResult env i k = fetchIssuesResult env2 i k := by
  unfold fetchIssuesResult; rw [h]

theorem loop_congr (env env2 : Env) (enabled : Bool) (i : Nat) (repo : Repo)
    (hc : ∀ j, env.create i j = env2.create i j)
    (hn : ∀ j, env.now (Site.record i j) = env2.now (Site.record i j))
    (hff : env.isFirefox = env2.isFirefox) (xs : List Issue) :
    ∀ j, loopError env enabled i j xs = loopError env2 enabled i j xs ∧
      loopEvents env enabled i repo j xs = loopEvents env2 enabled i repo j xs := by
  induction xs with
  | nil => intro j; exact ⟨rfl, rfl⟩
  | cons x rest ih =>
    intro j
    obtain ⟨h1, h2⟩ := ih (j + 1)
    have hse : sendError env enabled i j = sendError env2 enabled i j := by
      unfold sendError; rw [hc j]
    have hev : sendEvents env enabled i j repo x = sendEvents env2 enabled i j repo x := by
      unfold sendEvents notificationOptions; rw [hc j, hff]
    have hrec : recordFor env i j repo x = recordFor env2 i j repo x := by
      unfold recordFor; rw [hn j]
    unfold loopError loopEvents
    rw [hse, hev, hrec, h1, h2]
    exact ⟨rfl, rfl⟩

theorem outcome_congr (env env2 : Env) (settings : Settings) (i : Nat) (repo : Repo)
    (h : agreeAt env env2 i) (hff : env.isFirefox = env2.isFirefox) :
    outcome env settings i repo = outcome env2 settings i repo := by
  obtain ⟨hf, hc, hn, hck⟩ := h
  have h0 := fetchIssuesResult_congr env env2 i 0 (hf 0)
  have h1 := fetchIssuesResult_congr env env2 i 1 (hf 1)
  have hl := fun xs => loop_congr env env2 settings.notificationsEnabled i repo hc hn hff xs 0
  unfold outcome errorUpdates activeUpdates
  rw [h0, h1, hck]
  cases getNewIssuesResult repo.lastIssueNumber (fetchIssuesResult env2 i 0) with
  | error e => rfl
  | ok newIssues =>
    simp only []
    rw [(hl newIssues).1, (hl newIssues).2]

theorem finalEntry_congr (env env2 : Env) (settings : Settings) (i : Nat) (repo : Repo)
    (h : agreeAt env env2 i) (hff : env.isFirefox = env2.isFirefox) :
    finalEntry env settings i repo = finalEntry env2 settings i repo := by
  unfold finalEntry; rw [outcome_congr env env2 settings i repo h hff]

theorem finalEntry_lastChecked (env : Env) (settings : Settings) (i : Nat) (repo : Repo) :
    (finalEntry env settings i repo).lastChecked = some (env.now (Site.checked i)) := by
  unfold finalEntry
  rcases outcome_cases env settings i repo with ⟨e1, _, ho⟩ | ⟨n, e1, _, _, _, ho⟩ |
    ⟨n, _, _, _, ho⟩ | ⟨e1, _, _, ho⟩ | ⟨a, _, _, ho⟩ <;> rw [ho] <;>
    simp [applyUpdates, errorUpdates, activeUpdates]

theorem finalEntry_of_error (env : Env) (settings : Settings) (i : Nat) (repo : Repo)
    (e : String) (h : (outcome env settings i repo).error = some e) :
    (finalEntry env settings i repo).status = Status.error ∧
    (finalEntry env settings i repo).lastError = some e ∧
    (finalEntry env settings i repo).lastIssueNumber = repo.lastIssueNumber := by
  unfold finalEntry
  rw [outcome_error_updates env settings i repo e h]
  simp [applyUpdates, errorUpdates]

theorem outcome_fetch_error (env : Env) (settings : Settings) (i : Nat) (repo : Repo)
    (msg : String) (h : fetchIssuesResult env i 0 = .error msg) :
    (outcome env settings i repo).error = some msg ∧ newIssuesAt env i repo = [] := by
  have hn : getNewIssuesResult repo.lastIssueNumber (fetchIssuesResult env i 0) = .error msg := by
    rw [h]; rfl
  constructor
  · unfold outcome; rw [hn]
  · unfold newIssuesAt; rw [hn]

theorem checkAll_getStats (env : Env) (w : World) (hne : getRepositories w ≠ []) :
    getStats (checkAllRepositories env w) = passStats env w := by
  unfold getStats; rw [checkAll_stats env w hne]; rfl

theorem checkAll_entry_congr (env env2 : Env) (w : World)
    (hnd : ((getRepositories w).map (fun x => x.fullName)).Nodup) (b : Nat)
    (h : agreeAt env env2 b) (hff : env.isFirefox = env2.isFirefox) :
    (getRepositories (checkAllRepositories env w))[b]? =
      (getRepositories (checkAllRepositories env2 w))[b]? := by
  rw [checkAll_repos env w hnd, checkAll_repos env2 w hnd, entriesFrom_getElem?,
    entriesFrom_getElem?]
  simp only [Nat.zero_add]
  cases (getRepositories w)[b]? with
  | none => rfl
  | some r => simp [finalEntry_congr env env2 (getSettings w) b r h hff]

/-- C7 (failure isolation): if the first request for the repository `A` at
position `a` fails, every other repository `B` is still processed (its entry
carries the time of this pass and a final status) and its entry and its
notification calls are the same as under any outside world that differs from
this one only in what happens at position `a`; `A` ends with status error and
the message of the failure, contributes no new issue, and `totalIssuesFound`
grows by the new issues of the repositories. -/
theorem C7_isolation (env env2 : Env) (w : World) (a b : Nat) (A B : Repo) (msg : String)
    (hnd : ((getRepositories w).map (fun x => x.fullName)).Nodup)
    (hA : (getRepositories w)[a]? = some A) (hB : (getRepositories w)[b]? = some B)
    (hab : b ≠ a)
    (hfail : fetchIssuesResult env a 0 = .error msg)
    (hagree : ∀ i, i ≠ a → agreeAt env env2 i) (hff : env.isFirefox = env2.isFirefox) :
    (getRepositories (checkAllRepositories env w))[b]? =
      (getRepositories (checkAllRepositories env2 w))[b]? ∧
    eventsOf B.fullName (passEvents env w) = eventsOf B.fullName (passEvents env2 w) ∧
    (∃ e, (getRepositories (checkAllRepositories env w))[b]? = some e ∧
      e.lastChecked = some (env.now (Site.checked b)) ∧ e.status ≠ Status.checking) ∧
    (∃ e, (getRepositories (checkAllRepositories env w))[a]? = some e ∧
      e.status = Status.error ∧ e.lastError = some msg) ∧
    newIssuesAt env a A = [] ∧
    (getStats (checkAllRepositories env w)).totalIssuesFound =
      (getStats w).totalIssuesFound + newIssuesTotal env 0 (getRepositories w) := by
  have hne : getRepositories w ≠ [] := by
    intro h; rw [h] at hA; simp at hA
  obtain ⟨herr, hnew⟩ := outcome_fetch_error env (getSettings w) a A msg hfail
  obtain ⟨h1, h2, _⟩ := finalEntry_of_error env (getSettings w) a A msg herr
  refine ⟨checkAll_entry_congr env env2 w hnd b (hagree b hab) hff, ?_, ?_, ?_, hnew, ?_⟩
  · rw [eventsOf_pass_at env w hnd b B hB, eventsOf_pass_at env2 w hnd b B hB,
      outcome_congr env env2 (getSettings w) b B (hagree b hab) hff]
  · refine ⟨_, checkAll_entry env w hnd b B hB, finalEntry_lastChecked _ _ _ _, ?_⟩
    rw [finalEntry_status]
    split <;> simp
  · exact ⟨_, checkAll_entry env w hnd a A hA, h1, h2⟩
  · rw [checkAll_getStats env w hne, ← foundFrom_eq env (getSettings w)]; rfl

/-- C7, witness: `A = octo/gone` is not found, `B = octo/demo` has the two new
issues #7 and #6; `A` ends with status error, `B` with status active and
watermark 7, and `totalIssuesFound` grows by 2. -/
theorem C7_isolation_witness :
    ((getRepositories (checkAllRepositories isolationEnv isolationWorld))[1]? =
        (getRepositories (checkAllRepositories (mkEnv (fun _ _ =>
          [mkIssue 7, mkIssue 6, mkIssue 5])) isolationWorld))[1]? ∧
      eventsOf (mkRepo "octo" "demo" (some (JsNum.fin 5))).fullName
          (passEvents isolationEnv isolationWorld) =
        eventsOf (mkRepo "octo" "demo" (some (JsNum.fin 5))).fullName
          (passEvents (mkEnv (fun _ _ => [mkIssue 7, mkIssue 6, mkIssue 5])) isolationWorld) ∧
      (∃ e, (getRepositories (checkAllRepositories isolationEnv isolationWorld))[1]? = some e ∧
        e.lastChecked = some (isolationEnv.now (Site.checked 1)) ∧
        e.status ≠ Status.checking) ∧
      (∃ e, (getRepositories (checkAllRepositories isolationEnv isolationWorld))[0]? = some e ∧
        e.status = Status.error ∧ e.lastError = some "Repository not found") ∧
      newIssuesAt isolationEnv 0 (mkRepo "octo" "gone" (some (JsNum.fin 3))) = [] ∧
      (getStats (checkAllRepositories isolationEnv isolationWorld)).totalIssuesFound =
        (getStats isolationWorld).totalIssuesFound +
          newIssuesTotal isolationEnv 0 (getRepositories isolationWorld)) ∧
    statuses (checkAllRepositories isolationEnv isolationWorld) =
      [Status.error, Status.active] ∧
    watermarks (checkAllRepositories isolationEnv isolationWorld) =
      [some (JsNum.fin 3), some (JsNum.fin 7)] ∧
    (getStats (checkAllRepositories isolationEnv isolationWorld)).totalIssuesFound =
      (getStats isolationWorld).totalIssuesFound + 2 :=
  ⟨C7_isolation isolationEnv (mkEnv (fun _ _ => [mkIssue 7, mkIssue 6, mkIssue 5]))
      isolationWorld 0 1 (mkRepo "octo" "gone" (some (JsNum.fin 3)))
      (mkRepo "octo" "demo" (some (JsNum.fin 5))) "Repository not found"
      (by decide) rfl rfl (by decide) rfl
      (fun i hi => ⟨fun k => by simp [isolationEnv, mkEnv, hi], fun _ => rfl, fun _ => rfl, rfl⟩)
      rfl,
    by decide, by decide, by decide⟩

theorem loopError_first (env : Env) (i : Nat) (msg : String) (xs : List Issue) :
    ∀ (j0 j : Nat), j < xs.length → env.create i (j0 + j) = some msg →
      (∀ j2, j2 < j → env.create i (j0 + j2) = none) →
      loopError env true i j0 xs = some msg := by
  induction xs with
  | nil => intro j0 j hj; simp at hj
  | cons x rest ih =>
    intro j0 j hj hthrow hbefore
    unfold loopError
    cases j with
    | zero =>
      have : sendError env true i j0 = some msg := by simpa [sendError] using hthrow
      rw [this]
    | succ n =>
      have h0 : sendError env true i j0 = none := by
        have := hbefore 0 (Nat.succ_pos n)
        simpa [sendError] using this
      rw [h0]
      apply ih (j0 + 1) n
      · simpa using hj
      · have hk : j0 + 1 + n = j0 + (n + 1) := by omega
        rw [hk]; exact hthrow
      · intro j2 hj2
        have hk : j0 + 1 + j2 = j0 + (j2 + 1) := by omega
        rw [hk]; exact hbefore (j2 + 1) (by omega)

/-- C8, counterexample: watermark 5, fetched `[#7]`, and creating the alert for
#7 throws; the pass stores status error and leaves the watermark at 5, where
the claim says status active and watermark 7. -/
theorem C8_dispatch_failure_counterexample :
    statuses (checkAllRepositories throwingEnv (demoWorld (some (JsNum.fin 5)))) =
      [Status.error] ∧
    watermarks (checkAllRepositories throwingEnv (demoWorld (some (JsNum.fin 5)))) =
      [some (JsNum.fin 5)] ∧
    newIssuesAt throwingEnv 0 (mkRepo "octo" "demo" (some (JsNum.fin 5))) = [mkIssue 7] := by
  decide

/-- C8, amended: for a repository at position `i` with non-null watermark `W`
for which the fetch returns new issues, if notifications are enabled and
`sendNotification` throws for the `j`-th new issue (and for none before it),
the pass still continues: every other repository ends exactly as under an
outside world in which that dispatch does not fail, and the statistics are
written; this repository is stored with status error, the message thrown as
`lastError`, and its watermark unchanged at `W`. -/
theorem C8_dispatch_failure (env env2 : Env) (w : World) (i : Nat) (r : Repo) (W : Nat)
    (msg : String) (j : Nat)
    (hnd : ((getRepositories w).map (fun x => x.fullName)).Nodup)
    (hr : (getRepositories w)[i]? = some r)
    (hW : r.lastIssueNumber = some (JsNum.fin W))
    (hen : (getSettings w).notificationsEnabled = true)
    (hj : j < (newIssuesAt env i r).length)
    (hthrow : env.create i j = some msg)
    (hbefore : ∀ j2, j2 < j → env.create i j2 = none)
    (hagree : ∀ b, b ≠ i → agreeAt env env2 b) (hff : env.isFirefox = env2.isFirefox) :
    (∃ e, (getRepositories (checkAllRepositories env w))[i]? = some e ∧
      e.status = Status.error ∧ e.lastError = some msg ∧
      e.lastIssueNumber = some (JsNum.fin W)) ∧
    (∀ b, b ≠ i → (getRepositories (checkAllRepositories env w))[b]? =
      (getRepositories (checkAllRepositories env2 w))[b]?) ∧
    (getStats (checkAllRepositories env w)).totalChecks = (getStats w).totalChecks + 1 := by
  have hne : getRepositories w ≠ [] := by
    intro h; rw [h] at hr; simp at hr
  have herr : (outcome env (getSettings w) i r).error = some msg := by
    unfold newIssuesAt at hj
    rcases outcome_cases env (getSettings w) i r with ⟨e1, hn, ho⟩ | ⟨n, e1, hn, _, hl, ho⟩ |
      ⟨n, hn, _, hl, ho⟩ | ⟨e1, hn, _, ho⟩ | ⟨a, hn, _, ho⟩ <;> rw [hn] at hj <;>
      simp only [List.length_nil, Nat.not_lt_zero] at hj
    · have := loopError_first env i msg n 0 j hj (by simpa using hthrow)
        (fun j2 h2 => by simpa using hbefore j2 h2)
      rw [hen, this] at hl
      injection hl with hl
      rw [ho, hl]
    · have := loopError_first env i msg n 0 j hj (by simpa using hthrow)
        (fun j2 h2 => by simpa using hbefore j2 h2)
      rw [hen, this] at hl
      cases hl
  obtain ⟨h1, h2, h3⟩ := finalEntry_of_error env (getSettings w) i r msg herr
  refine ⟨⟨_, checkAll_entry env w hnd i r hr, h1, h2, by rw [h3, hW]⟩, ?_, ?_⟩
  · intro b hb
    exact checkAll_entry_congr env env2 w hnd b (hagree b hb) hff
  · rw [checkAll_getStats env w hne]; rfl

/-- C8, witness: watermark 5, fetched `[#7]`, the alert for #7 throws. -/
theorem C8_dispatch_failure_witness :
    (∃ e, (getRepositories (checkAllRepositories throwingEnv
        (demoWorld (some (JsNum.fin 5)))))[0]? = some e ∧
      e.status = Status.error ∧ e.lastError = some "alert failed" ∧
      e.lastIssueNumber = some (JsNum.fin 5)) ∧
    (∀ b, b ≠ 0 → (getRepositories (checkAllRepositories throwingEnv
        (demoWorld (some (JsNum.fin 5)))))[b]? =
      (getRepositories (checkAllRepositories (demoEnv [7])
        (demoWorld (some (JsNum.fin 5)))))[b]?) ∧
    (getStats (checkAllRepositories throwingEnv (demoWorld (some (JsNum.fin 5))))).totalChecks =
      (getStats (demoWorld (some (JsNum.fin 5)))).totalChecks + 1 :=
  C8_dispatch_failure throwingEnv (demoEnv [7]) (demoWorld (some (JsNum.fin 5))) 0
    (mkRepo "octo" "demo" (some (JsNum.fin 5))) 5 "alert failed" 0
    (by decide) rfl rfl rfl (by decide) rfl (fun j2 h2 => absurd h2 (Nat.not_lt_zero j2))
    (fun b hb => ⟨fun _ => rfl, fun j => by simp [throwingEnv, demoEnv, mkEnv, hb],
      fun _ => rfl, rfl⟩)
    rfl

/-- C9 (idempotence): when the source gives the same answer to every request
for a repository, in both passes, and no alert throws in the first pass, a
second pass right after the first leaves every stored watermark and status and
`totalIssuesFound` as they are after the first pass. -/
theorem C9_second_pass (env env2 : Env) (w : World)
    (hnd : ((getRepositories w).map (fun x => x.fullName)).Nodup)
    (hconst : ∀ i k, env.fetch i k = env.fetch i 0)
    (hsame : ∀ i k, env2.fetch i k = env.fetch i k)
    (hcreate : ∀ i j, env.create i j = none) :
    watermarks (checkAllRepositories env2 (checkAllRepositories env w)) =
      watermarks (checkAllRepositories env w) ∧
    statuses (checkAllRepositories env2 (checkAllRepositories env w)) =
      statuses (checkAllRepositories env w) ∧
    (getStats (checkAllRepositories env2 (checkAllRepositories env w))).totalIssuesFound =
      (getStats (checkAllRepositories env w)).totalIssuesFound := by
  have hrep := checkAll_repos env w hnd
  have hset : getSettings (checkAllRepositories env w) = getSettings w :=
    getSettings_congr (checkAll_settings env w)
  have hnd1 : ((getRepositories (checkAllRepositories env w)).map (fun x => x.fullName)).Nodup := by
    rw [hrep, names_entriesFrom]; exact hnd
  have hrep2 := checkAll_repos env2 (checkAllRepositories env w) hnd1
  rw [hset, hrep] at hrep2
  obtain ⟨h1, h2, h3⟩ := second_entries env env2 (getSettings w) hconst hsame hcreate
    (getRepositories w) 0
  unfold watermarks statuses
  rw [hrep2, hrep]
  refine ⟨h1, h2, ?_⟩
  by_cases hne : getRepositories (checkAllRepositories env w) = []
  · have : checkAllRepositories env2 (checkAllRepositories env w) = checkAllRepositories env w := by
      generalize checkAllRepositories env w = w1 at hne
      unfold checkAllRepositories
      simp [hne]
    rw [this]
  · rw [checkAll_getStats env2 _ hne]
    unfold passStats
    rw [hset, hrep, h3]
    rfl

/-- C9, witness: watermark 5 and the page `[#7, #5, #3, #1]` in both passes. -/
theorem C9_second_pass_witness :
    watermarks (checkAllRepositories (demoEnv [7, 5, 3, 1])
        (checkAllRepositories (demoEnv [7, 5, 3, 1]) (demoWorld (some (JsNum.fin 5))))) =
      watermarks (checkAllRepositories (demoEnv [7, 5, 3, 1]) (demoWorld (some (JsNum.fin 5)))) ∧
    statuses (checkAllRepositories (demoEnv [7, 5, 3, 1])
        (checkAllRepositories (demoEnv [7, 5, 3, 1]) (demoWorld (some (JsNum.fin 5))))) =
      statuses (checkAllRepositories (demoEnv [7, 5, 3, 1]) (demoWorld (some (JsNum.fin 5)))) ∧
    (getStats (checkAllRepositories (demoEnv [7, 5, 3, 1])
        (checkAllRepositories (demoEnv [7, 5, 3, 1])
          (demoWorld (some (JsNum.fin 5)))))).totalIssuesFound =
      (getStats (checkAllRepositories (demoEnv [7, 5, 3, 1])
        (demoWorld (some (JsNum.fin 5))))).totalIssuesFound :=
  C9_second_pass (demoEnv [7, 5, 3, 1]) (demoEnv [7, 5, 3, 1]) (demoWorld (some (JsNum.fin 5)))
    (by decide) (fun _ _ => rfl) (fun _ _ => rfl) (fun _ _ => rfl)

theorem fetchIssuesResult_strip (env : Env) (i k : Nat) :
    fetchIssuesResult (stripPulls env) i k = fetchIssuesResult env i k := by
  unfold fetchIssuesResult stripPulls
  cases hf : env.fetch i k with
  | error e => simp only [hf]
  | ok response =>
    simp only [hf, Response.ok, List.filter_filter, Bool.and_self]

theorem notifyLoop_strip (env : Env) (i : Nat) (repo : Repo) (xs : List Issue) :
    ∀ (j : Nat) (w : World),
      notifyLoop (stripPulls env) i repo j xs w = notifyLoop env i repo j xs w := by
  induction xs with
  | nil => intro j w; rfl
  | cons x rest ih =>
    intro j w
    unfold notifyLoop
    have hs : sendNotification (stripPulls env) i j repo x w = sendNotification env i j repo x w :=
      rfl
    rw [hs]
    cases sendNotification env i j repo x w with
    | mk w1 err =>
      cases err with
      | some e => rfl
      | none => exact ih (j + 1) _

theorem tryBody_strip (env : Env) (settings : Settings) (i : Nat) (repo : Repo) (w : World)
    (t : Nat) :
    tryBody (stripPulls env) settings i repo w t = tryBody env settings i repo w t := by
  unfold tryBody getNewIssues fetchIssues
  simp only [fetchIssuesResult_strip, notifyLoop_strip]
  rfl

theorem repoLoop_strip (env : Env) (settings : Settings) (l : List Repo) :
    ∀ (k : Nat) (w : World) (t : Nat),
      repoLoop (stripPulls env) settings k l w t = repoLoop env settings k l w t := by
  induction l with
  | nil => intro k w t; rfl
  | cons x xs ih =>
    intro k w t
    unfold repoLoop processRepo
    rw [tryBody_strip]
    have hnow : (stripPulls env).now = env.now := rfl
    rw [hnow]
    simp only [ih]

/-- C10 (pull-request exclusion): the result of `fetchIssues` is the answer of
the source without the entries that carry `pull_request`, the others kept in
their order; the result of `getNewIssues` contains no such entry; and the whole
result of a pass (entries, statistics, log, trace of notifications) is the
same as when the source leaves those entries out of every answer. -/
theorem C10_pull_requests_excluded (env : Env) :
    (∀ i k issues, fetchIssuesResult env i k = .ok issues →
      ∃ response, env.fetch i k = .ok response ∧
        issues = response.body.filter (fun issue => !issue.pull_request)) ∧
    (∀ i wm newIssues, getNewIssuesResult wm (fetchIssuesResult env i 0) = .ok newIssues →
      ∀ x ∈ newIssues, x.pull_request = false) ∧
    (∀ w, checkAllRepositories (stripPulls env) w = checkAllRepositories env w) := by
  have h1 : ∀ i k issues, fetchIssuesResult env i k = .ok issues →
      ∃ response, env.fetch i k = .ok response ∧
        issues = response.body.filter (fun issue => !issue.pull_request) := by
    intro i k issues h
    unfold fetchIssuesResult at h
    cases hf : env.fetch i k with
    | error e => rw [hf] at h; cases h
    | ok response =>
      rw [hf] at h
      refine ⟨response, rfl, ?_⟩
      by_cases hok : response.ok = true
      · simp [hok] at h; exact h.symm
      · simp only [hok] at h
        split at h
        · split at h
          · cases h
          · split at h <;> cases h
        · simp at *
  refine ⟨h1, ?_, ?_⟩
  · intro i wm newIssues h x hx
    cases hF : fetchIssuesResult env i 0 with
    | error e => rw [hF] at h; cases h
    | ok page =>
      obtain ⟨response, _, hp⟩ := h1 i 0 page hF
      rw [hF, getNewIssuesResult_ok] at h
      injection h with h
      have hx2 : x ∈ page := by
        rw [← h] at hx
        unfold newOf at hx
        split at hx
        · simp at hx
        · exact List.mem_of_mem_filter hx
      rw [hp] at hx2
      simpa using (List.mem_filter.mp hx2).2
  · intro w
    unfold checkAllRepositories
    simp only [repoLoop_strip]
    rfl

/-- C11, counterexample: watermark 5 and the fetched entries `[#7, #7]`; the
pass adds 2 to `totalIssuesFound` although 7 is the only new issue number. -/
theorem C11_duplicates_counterexample :
    (getStats (checkAllRepositories (demoEnv [7, 7])
      (demoWorld (some (JsNum.fin 5))))).totalIssuesFound = 2 ∧
    ((newIssuesAt (demoEnv [7, 7]) 0 (mkRepo "octo" "demo" (some (JsNum.fin 5)))).map
      (fun x => x.number)).dedup.length = 1 := by
  decide

/-- C11, amended: for a repository with non-null, non-zero watermark `W` whose
request is answered with the issues `fetched`, the iteration adds to
`totalNewIssues` the number of list entries with number > `W`; an issue number
that occurs several times is counted once per entry. -/
theorem C11_counts_entries (env : Env) (settings : Settings) (i : Nat) (r : Repo) (w : World)
    (t W : Nat) (fetched : List Issue)
    (hs : getSettings w = settings)
    (hW : r.lastIssueNumber = some (JsNum.fin W)) (hW0 : W ≠ 0)
    (hfetch : fetchIssuesResult env i 0 = .ok fetched) :
    (processRepo env settings i r w t).2 =
      t + (fetched.filter (fun x => decide (x.number > W))).length := by
  obtain ⟨h1, _⟩ := processRepo_spec env settings i r w t hs
  rw [h1, outcome_found]
  unfold newIssuesAt
  rw [hW, hfetch, getNewIssuesResult_fin W hW0]

/-- C11, witness: watermark 5 and the fetched entries `[#7, #7]` add 2. -/
theorem C11_counts_entries_witness :
    (processRepo (demoEnv [7, 7]) (getSettings (demoWorld (some (JsNum.fin 5)))) 0
        (mkRepo "octo" "demo" (some (JsNum.fin 5))) (demoWorld (some (JsNum.fin 5))) 0).2 =
      0 + ([mkIssue 7, mkIssue 7].filter (fun x => decide (x.number > 5))).length :=
  C11_counts_entries (demoEnv [7, 7]) (getSettings (demoWorld (some (JsNum.fin 5)))) 0
    (mkRepo "octo" "demo" (some (JsNum.fin 5))) (demoWorld (some (JsNum.fin 5))) 0 5
    [mkIssue 7, mkIssue 7] rfl rfl (by decide) rfl

/-- C15 (export redacts the credential): two stores that differ only in the
stored token give the same export document, and the `settings` object of the
document consists of `checkInterval`, `notificationsEnabled` and
`soundEnabled` of the stored settings. -/
theorem C15_export_without_token (isoNow : String) (w : World) (s : Settings)
    (token1 token2 : String) :
    exportData isoNow (withSettings w (withToken s token1)) =
      exportData isoNow (withSettings w (withToken s token2)) ∧
    (exportData isoNow (withSettings w s)).settings =
      { checkInterval := s.checkInterval, notificationsEnabled := s.notificationsEnabled,
        soundEnabled := s.soundEnabled } :=
  ⟨rfl, rfl⟩

/-- C17 (exact effect of `addNotification`): the stored log becomes the new
record followed by the first 50 records of the old log, so its length is
`min |H| 50 + 1`. -/
theorem C17_addNotification_effect (now : Nat) (n : Notification) (w : World) :
    storedHistory (addNotification now n w) = recordOf now n :: (storedHistory w).take 50 ∧
    (storedHistory (addNotification now n w)).length = min (storedHistory w).length 50 + 1 := by
  have h : storedHistory (addNotification now n w) =
      recordOf now n :: (storedHistory w).take 50 := by
    unfold storedHistory addNotification getNotificationHistory defaultLimit recordOf
    simp only [Option.getD_some]
    rw [List.take_of_length_le]
    simp only [List.length_cons, List.length_take]
    omega
  refine ⟨h, ?_⟩
  rw [h]
  simp [Nat.min_comm]

theorem split_at_char (c : Char) (l1 : List Char) :
    ∀ (l2 r1 r2 : List Char), c ∉ l1 → c ∉ l2 → l1 ++ c :: r1 = l2 ++ c :: r2 →
      l1 = l2 ∧ r1 = r2 := by
  induction l1 with
  | nil =>
    intro l2 r1 r2 _ h2 h
    cases l2 with
    | nil => simp at h; exact ⟨rfl, h⟩
    | cons d ds =>
      simp at h
      exact absurd (h.1 ▸ List.mem_cons_self _ _) h2
  | cons a as ih =>
    intro l2 r1 r2 h1 h2 h
    cases l2 with
    | nil =>
      simp at h
      exact absurd (h.1 ▸ List.mem_cons_self _ _) h1
    | cons d ds =>
      simp only [List.cons_append, List.cons.injEq] at h
      obtain ⟨g1, g2⟩ := ih ds r1 r2 (fun hc => h1 (List.mem_cons_of_mem _ hc))
        (fun hc => h2 (List.mem_cons_of_mem _ hc)) h.2
      exact ⟨by rw [h.1, g1], g2⟩

theorem fullName_inj (o1 r1 o2 r2 : String) (h1 : '/' ∉ o1.data) (h2 : '/' ∉ o2.data)
    (h : o1 ++ "/" ++ r1 = o2 ++ "/" ++ r2) : o1 = o2 ∧ r1 = r2 := by
  have hd := congrArg String.data h
  simp only [String.data_append, List.append_assoc] at hd
  simp only [List.singleton_append] at hd
  obtain ⟨g1, g2⟩ := split_at_char '/' o1.data o2.data r1.data r2.data h1 h2 hd
  exact ⟨String.ext g1, String.ext g2⟩

/-- C12, counterexample: the stored list holds the entry with owner `a/b`,
repo `c` and fullName `a/b/c`; `addRepository("a", "b/c")` does not throw
although an entry with fullName `a/b/c` exists, and the list it writes holds
that fullName twice. -/
theorem C12_fullName_counterexample :
    addedNames (addRepository 0 "a" "b/c" (mkWorld [mkRepo "a/b" "c" none])) =
      some ["a/b/c", "a/b/c"] ∧
    (mkRepo "a/b" "c" none).fullName = "a" ++ "/" ++ "b/c" := by
  decide

/-- C12, amended: for every stored list with pairwise distinct fullName values
whose entries have fullName = owner + "/" + repo with an owner free of "/",
and every pair of strings with the owner free of "/", `addRepository` throws
'Repository already being monitored' (and writes nothing) whenever an entry
with fullName owner + "/" + repo exists; otherwise it appends one entry with
lastChecked null, lastIssueNumber null and status active, and the fullName
values of the resulting list are again pairwise distinct. -/
theorem C12_addRepository (now : Nat) (owner repo : String) (w : World)
    (hnd : ((getRepositories w).map (fun x => x.fullName)).Nodup)
    (hwf : ∀ e ∈ getRepositories w,
      e.fullName = e.owner ++ "/" ++ e.repo ∧ '/' ∉ e.owner.data)
    (ho : '/' ∉ owner.data) :
    ((∃ e ∈ getRepositories w, e.fullName = owner ++ "/" ++ repo) →
      addRepository now owner repo w = .error "Repository already being monitored") ∧
    ((¬ ∃ e ∈ getRepositories w, e.fullName = owner ++ "/" ++ repo) →
      ∃ w2 newRepo, addRepository now owner repo w = .ok (w2, newRepo) ∧
        newRepo.owner = owner ∧ newRepo.repo = repo ∧
        newRepo.fullName = owner ++ "/" ++ repo ∧
        newRepo.lastChecked = none ∧ newRepo.lastIssueNumber = none ∧
        newRepo.status = Status.active ∧
        getRepositories w2 = getRepositories w ++ [newRepo] ∧
        ((getRepositories w2).map (fun x => x.fullName)).Nodup) := by
  constructor
  · rintro ⟨e, he, hname⟩
    obtain ⟨hf, hslash⟩ := hwf e he
    rw [hf] at hname
    obtain ⟨g1, g2⟩ := fullName_inj _ _ _ _ hslash ho hname
    have hany : (getRepositories w).any (fun r => r.owner == owner && r.repo == repo) = true := by
      rw [List.any_eq_true]
      exact ⟨e, he, by simp [g1, g2]⟩
    unfold addRepository
    simp only [hany, if_true]
  · intro hno
    have hany : (getRepositories w).any (fun r => r.owner == owner && r.repo == repo) = false := by
      rw [Bool.eq_false_iff]
      intro hc
      rw [List.any_eq_true] at hc
      obtain ⟨e, he, heq⟩ := hc
      simp only [Bool.and_eq_true, beq_iff_eq] at heq
      apply hno
      refine ⟨e, he, ?_⟩
      rw [(hwf e he).1, heq.1, heq.2]
    unfold addRepository
    simp only [hany, Bool.false_eq_true, if_false]
    refine ⟨_, _, rfl, rfl, rfl, rfl, rfl, rfl, rfl, ?_, ?_⟩
    · simp [getRepositories]
    · simp only [getRepositories, Option.getD_some, List.map_append, List.map_cons, List.map_nil]
      rw [List.nodup_append]
      refine ⟨hnd, by simp, ?_⟩
      intro a ha hb
      rw [List.mem_singleton] at hb
      obtain ⟨e, he, hea⟩ := List.mem_map.mp ha
      exact hno ⟨e, he, by rw [hea, hb]⟩

/-- C12, witness: adding `octo/other` next to `octo/demo`. -/
theorem C12_addRepository_witness :
    ((∃ e ∈ getRepositories (demoWorld none), e.fullName = "octo" ++ "/" ++ "other") →
      addRepository 0 "octo" "other" (demoWorld none) =
        .error "Repository already being monitored") ∧
    ((¬ ∃ e ∈ getRepositories (demoWorld none), e.fullName = "octo" ++ "/" ++ "other") →
      ∃ w2 newRepo, addRepository 0 "octo" "other" (demoWorld none) = .ok (w2, newRepo) ∧
        newRepo.owner = "octo" ∧ newRepo.repo = "other" ∧
        newRepo.fullName = "octo" ++ "/" ++ "other" ∧
        newRepo.lastChecked = none ∧ newRepo.lastIssueNumber = none ∧
        newRepo.status = Status.active ∧
        getRepositories w2 = getRepositories (demoWorld none) ++ [newRepo] ∧
        ((getRepositories w2).map (fun x => x.fullName)).Nodup) :=
  C12_addRepository 0 "octo" "other" (demoWorld none) (by decide) (by decide) (by decide)

theorem names_modifyFirst (p : Repo → Bool) (f : Repo → Repo)
    (hf : ∀ r, (f r).fullName = r.fullName) (l : List Repo) :
    (modifyFirst p f l).map (fun r => r.fullName) = l.map (fun r => r.fullName) := by
  induction l with
  | nil => rfl
  | cons x xs ih =>
    by_cases hx : p x = true
    · simp [modifyFirst, hx, hf]
    · simp [modifyFirst, hx, ih]

theorem repoLoop_names (env : Env) (settings : Settings) (l : List Repo) :
    ∀ (k : Nat) (w : World) (t : Nat), getSettings w = settings →
      (getRepositories (repoLoop env settings k l w t).1).map (fun r => r.fullName) =
        (getRepositories w).map (fun r => r.fullName) := by
  induction l with
  | nil => intro k w t _; rfl
  | cons x xs ih =>
    intro k w t hs
    obtain ⟨_, _, h3, _, h5⟩ := processRepo_spec env settings k x w t hs
    unfold repoLoop
    generalize processRepo env settings k x w t = res at *
    obtain ⟨w1, t1⟩ := res
    simp only [] at h3 h5 ⊢
    have hs1 : getSettings w1 = settings := by rw [← hs]; exact getSettings_congr h3
    rw [ih (k + 1) w1 t1 hs1, h5, names_modifyFirst _ _ (fun r => applyUpdates_fullName r _)]

theorem checkAll_names (env : Env) (w : World) :
    (getRepositories (checkAllRepositories env w)).map (fun r => r.fullName) =
      (getRepositories w).map (fun r => r.fullName) := by
  by_cases hne : getRepositories w = []
  · unfold checkAllRepositories; simp [hne]
  · rw [checkAll_eq env w hne]
    have h := repoLoop_names env (getSettings w) (getRepositories w) 0 w 0 rfl
    rw [← h]
    rfl

/-- C13 (removal): after `removeRepository(fullName)` the stored list is the
old list without the entries of that fullName, the others unchanged and in
order; a following pass stores no entry of that fullName, and every request,
notification call, alert and record of that pass belongs to a remaining
entry. -/
theorem C13_removal (env : Env) (name : String) (w : World) :
    getRepositories (removeRepository name w) =
      (getRepositories w).filter (fun r => r.fullName != name) ∧
    (∀ e ∈ getRepositories (removeRepository name w), e.fullName ≠ name) ∧
    (∀ e ∈ getRepositories (checkAllRepositories env (removeRepository name w)),
      e.fullName ≠ name) ∧
    (∀ ev ∈ passEvents env (removeRepository name w),
      (∃ st, ev = Event.statsWrite st) ∨
      ∃ r ∈ getRepositories w, r.fullName ≠ name ∧ ownedBy env r ev) := by
  have h1 : getRepositories (removeRepository name w) =
      (getRepositories w).filter (fun r => r.fullName != name) := by
    simp [removeRepository, getRepositories]
  have h2 : ∀ e ∈ getRepositories (removeRepository name w), e.fullName ≠ name := by
    intro e he
    rw [h1] at he
    simpa using (List.mem_filter.mp he).2
  refine ⟨h1, h2, ?_, ?_⟩
  · intro e he
    have hmem : e.fullName ∈ (getRepositories (checkAllRepositories env
        (removeRepository name w))).map (fun r => r.fullName) :=
      List.mem_map.mpr ⟨e, he, rfl⟩
    rw [checkAll_names] at hmem
    obtain ⟨x, hx, hxe⟩ := List.mem_map.mp hmem
    rw [← hxe]
    exact h2 x hx
  · intro ev hev
    by_cases hne : getRepositories (removeRepository name w) = []
    · rw [passEvents_nil env _ hne] at hev; simp at hev
    · rw [passEvents_eq env _ hne] at hev
      rcases List.mem_append.mp hev with hev | hev
      · right
        obtain ⟨r, hr, ho⟩ := eventsFrom_owned env _ _ 0 ev hev
        refine ⟨r, ?_, h2 r hr, ho⟩
        rw [h1] at hr
        exact List.mem_of_mem_filter hr
      · left
        rw [List.mem_singleton] at hev
        exact ⟨_, hev⟩

theorem isBeginnerFriendly_iff (issue : Issue) :
    isBeginnerFriendly issue = true ↔ approachable issue := by
  unfold isBeginnerFriendly approachable beginnerLabels includes
  simp only [List.any_eq_true, decide_eq_true_eq]

/-- C14 (approachable classification): the alert has priority 2 and its
message ends with the marker line exactly when a label name, lower-cased,
contains one of the four markers; otherwise the priority is 1 and the message
carries no marker line.  With notifications disabled `sendNotification`
creates no alert; with notifications enabled it creates this alert. -/
theorem C14_classification (env : Env) (repo : Repo) (issue : Issue) :
    (approachable issue →
      (notificationOptions env repo issue).priority = 2 ∧
      (notificationOptions env repo issue).message =
        baseMessage issue ++ "\n⭐ Good First Issue!") ∧
    (¬ approachable issue →
      (notificationOptions env repo issue).priority = 1 ∧
      (notificationOptions env repo issue).message = baseMessage issue) ∧
    (∀ i j w, (getSettings w).notificationsEnabled = false →
      sendNotification env i j repo issue w =
        (w.log (Event.send repo.fullName issue.number), none)) ∧
    (∀ i j w, (getSettings w).notificationsEnabled = true → env.create i j = none →
      sendNotification env i j repo issue w =
        ((w.log (Event.send repo.fullName issue.number)).log
          (Event.alert (notificationOptions env repo issue)), none)) := by
  refine ⟨?_, ?_, ?_, ?_⟩
  · intro h
    have hb := (isBeginnerFriendly_iff issue).mpr h
    simp [notificationOptions, baseMessage, hb]
  · intro h
    have hb : isBeginnerFriendly issue = false := by
      rw [Bool.eq_false_iff]
      exact fun hc => h ((isBeginnerFriendly_iff issue).mp hc)
    simp [notificationOptions, baseMessage, hb]
  · intro i j w h
    have hset : getSettings (w.log (Event.send repo.fullName issue.number)) = getSettings w :=
      getSettings_congr rfl
    unfold sendNotification
    simp [hset, h]
  · intro i j w h hc
    have hset : getSettings (w.log (Event.send repo.fullName issue.number)) = getSettings w :=
      getSettings_congr rfl
    unfold sendNotification
    simp [hset, h, hc]

theorem fetchIssuesResult_inv (env : Env) (i k : Nat) (issues : List Issue)
    (h : fetchIssuesResult env i k = .ok issues) :
    ∃ response, env.fetch i k = .ok response ∧
      issues = response.body.filter (fun issue => !issue.pull_request) := by
  unfold fetchIssuesResult at h
  cases hf : env.fetch i k with
  | error e => rw [hf] at h; cases h
  | ok response =>
    rw [hf] at h
    refine ⟨response, rfl, ?_⟩
    by_cases hok : response.ok = true
    · simp [hok] at h; exact h.symm
    · simp only [hok] at h
      split at h
      · split at h
        · cases h
        · split at h <;> cases h
      · simp at *

/-- C16 (atomicity on fetch failure): if a request made for the repository at
position `i` fails, be it the first request or the second one (made when the
first succeeded and reported no new issue), then after the pass its watermark
is the one before the pass, its status is error, its `lastError` is the
message of the failure, no notification call or record was made for it, and it
contributes no new issue to `totalIssuesFound`. -/
theorem C16_fetch_failure (env : Env) (w : World) (i : Nat) (r : Repo) (msg : String)
    (hnd : ((getRepositories w).map (fun x => x.fullName)).Nodup)
    (hr : (getRepositories w)[i]? = some r)
    (hfail : fetchIssuesResult env i 0 = .error msg ∨
      (getNewIssuesResult r.lastIssueNumber (fetchIssuesResult env i 0) = .ok [] ∧
        fetchIssuesResult env i 1 = .error msg)) :
    (∃ e, (getRepositories (checkAllRepositories env w))[i]? = some e ∧
      e.lastIssueNumber = r.lastIssueNumber ∧ e.status = Status.error ∧
      e.lastError = some msg) ∧
    eventsOf r.fullName (passEvents env w) = [] ∧
    newIssuesAt env i r = [] ∧
    (getStats (checkAllRepositories env w)).totalIssuesFound =
      (getStats w).totalIssuesFound + newIssuesTotal env 0 (getRepositories w) := by
  have hne : getRepositories w ≠ [] := by
    intro h; rw [h] at hr; simp at hr
  have hkey : (outcome env (getSettings w) i r).error = some msg ∧
      eventsOf r.fullName (outcome env (getSettings w) i r).events = [] ∧
      newIssuesAt env i r = [] := by
    unfold newIssuesAt
    rcases hfail with h0 | ⟨h0, h1⟩
    · have hn : getNewIssuesResult r.lastIssueNumber (fetchIssuesResult env i 0) =
          .error msg := by rw [h0]; rfl
      rcases outcome_cases env (getSettings w) i r with ⟨e1, hn2, ho⟩ | ⟨n, e1, hn2, _, _, ho⟩ |
        ⟨n, hn2, _, _, ho⟩ | ⟨e1, hn2, _, ho⟩ | ⟨a, hn2, _, ho⟩ <;> rw [hn] at hn2 <;>
        cases hn2
      rw [ho, hn]
      exact ⟨rfl, rfl, rfl⟩
    · rcases outcome_cases env (getSettings w) i r with ⟨e1, hn2, ho⟩ | ⟨n, e1, hn2, hne2, _, ho⟩ |
        ⟨n, hn2, hne2, _, ho⟩ | ⟨e1, hn2, hf, ho⟩ | ⟨a, hn2, hf, ho⟩ <;> rw [h0] at hn2
      · cases hn2
      · injection hn2 with hn2; exact absurd hn2.symm hne2
      · injection hn2 with hn2; exact absurd hn2.symm hne2
      · rw [h1] at hf
        injection hf with hf
        rw [ho, h0, hf]
        exact ⟨rfl, rfl, rfl⟩
      · rw [h1] at hf; cases hf
  obtain ⟨herr, hev, hnew⟩ := hkey
  obtain ⟨h1, h2, h3⟩ := finalEntry_of_error env (getSettings w) i r msg herr
  refine ⟨⟨_, checkAll_entry env w hnd i r hr, h3, h1, h2⟩, ?_, hnew, ?_⟩
  · rw [eventsOf_pass_at env w hnd i r hr]; exact hev
  · rw [checkAll_getStats env w hne, ← foundFrom_eq env (getSettings w)]; rfl

/-- C16, witness: the request for `octo/gone` at position 0 is answered with
status 404. -/
theorem C16_fetch_failure_witness :
    (∃ e, (getRepositories (checkAllRepositories isolationEnv isolationWorld))[0]? = some e ∧
      e.lastIssueNumber = (mkRepo "octo" "gone" (some (JsNum.fin 3))).lastIssueNumber ∧
      e.status = Status.error ∧ e.lastError = some "Repository not found") ∧
    eventsOf (mkRepo "octo" "gone" (some (JsNum.fin 3))).fullName
      (passEvents isolationEnv isolationWorld) = [] ∧
    newIssuesAt isolationEnv 0 (mkRepo "octo" "gone" (some (JsNum.fin 3))) = [] ∧
    (getStats (checkAllRepositories isolationEnv isolationWorld)).totalIssuesFound =
      (getStats isolationWorld).totalIssuesFound +
        newIssuesTotal isolationEnv 0 (getRepositories isolationWorld) :=
  C16_fetch_failure isolationEnv isolationWorld 0 (mkRepo "octo" "gone" (some (JsNum.fin 3)))
    "Repository not found" (by decide) rfl (Or.inl rfl)

/-- C18 (watermark values are well-defined): `Math.max` of a non-empty list is
one of its elements, and the watermark stored for the repository at position
`i` after the pass is either the one before the pass or the number of a
non-pull-request issue that the source returned for this repository during
the pass; in particular it is not `-Infinity` unless it was before. -/
theorem C18_watermark_values (env : Env) (w : World) (i : Nat) (r : Repo)
    (hnd : ((getRepositories w).map (fun x => x.fullName)).Nodup)
    (hr : (getRepositories w)[i]? = some r) :
    (∀ xs : List Nat, xs ≠ [] → ∃ m ∈ xs, mathMax xs = JsNum.fin m) ∧
    ∃ e, (getRepositories (checkAllRepositories env w))[i]? = some e ∧
      (e.lastIssueNumber = r.lastIssueNumber ∨
        ∃ k response x, env.fetch i k = .ok response ∧ x ∈ response.body ∧
          x.pull_request = false ∧ e.lastIssueNumber = some (JsNum.fin x.number)) ∧
      (r.lastIssueNumber ≠ some JsNum.negInf → e.lastIssueNumber ≠ some JsNum.negInf) := by
  have hmax : ∀ xs : List Nat, xs ≠ [] → ∃ m ∈ xs, mathMax xs = JsNum.fin m := by
    intro xs hne
    obtain ⟨m, h1, h2, _⟩ := mathMax_spec xs hne
    exact ⟨m, h2, h1⟩
  have hpage : ∀ k page, fetchIssuesResult env i k = .ok page → page ≠ [] →
      ∃ response x, env.fetch i k = .ok response ∧ x ∈ response.body ∧
        x.pull_request = false ∧
        mathMax (page.map (fun y => y.number)) = JsNum.fin x.number := by
    intro k page hF hne
    obtain ⟨response, hresp, hp⟩ := fetchIssuesResult_inv env i k page hF
    obtain ⟨m, hm, hmx⟩ := hmax (page.map (fun y => y.number)) (by simpa using hne)
    obtain ⟨x, hx, hxm⟩ := List.mem_map.mp hm
    rw [hp] at hx
    obtain ⟨hx1, hx2⟩ := List.mem_filter.mp hx
    exact ⟨response, x, hresp, hx1, by simpa using hx2, by rw [hmx, hxm]⟩
  have hmain : (finalEntry env (getSettings w) i r).lastIssueNumber = r.lastIssueNumber ∨
      ∃ k response x, env.fetch i k = .ok response ∧ x ∈ response.body ∧
        x.pull_request = false ∧
        (finalEntry env (getSettings w) i r).lastIssueNumber = some (JsNum.fin x.number) := by
    unfold finalEntry
    rcases outcome_cases env (getSettings w) i r with ⟨e1, hn, ho⟩ | ⟨n, e1, hn, _, _, ho⟩ |
      ⟨n, hn, hne, _, ho⟩ | ⟨e1, hn, _, ho⟩ | ⟨a, hn, hf, ho⟩
    · left; rw [ho]; rfl
    · left; rw [ho]; rfl
    · right
      cases hF : fetchIssuesResult env i 0 with
      | error e => rw [hF] at hn; cases hn
      | ok page =>
        rw [hF, getNewIssuesResult_ok] at hn
        injection hn with hn
        have hne2 : newOf r.lastIssueNumber page ≠ [] := by rw [hn]; exact hne
        have hpne : page ≠ [] := by
          intro h; rw [h] at hne2; simp [newOf] at hne2
        obtain ⟨response, x, h1, h2, h3, h4⟩ := hpage 0 page hF hpne
        refine ⟨0, response, x, h1, h2, h3, ?_⟩
        rw [ho, ← hn, settle_new r.lastIssueNumber page hne2, h4]
        rfl
    · left; rw [ho]; rfl
    · rw [ho]
      simp only [applyUpdates, activeUpdates, Option.getD_some]
      by_cases hlen : a.length > 0
      · rw [if_pos hlen]
        unfold orElse
        split
        · right
          obtain ⟨response, x, h1, h2, h3, h4⟩ := hpage 1 a hf (List.length_pos.mp hlen)
          exact ⟨1, response, x, h1, h2, h3, by rw [h4]⟩
        · left; rfl
      · rw [if_neg hlen]
        left
        unfold orElse
        split <;> rfl
  refine ⟨hmax, _, checkAll_entry env w hnd i r hr, hmain, ?_⟩
  intro hpre hpost
  rcases hmain with h | ⟨_, _, _, _, _, _, h⟩
  · rw [h] at hpost; exact hpre hpost
  · rw [h] at hpost; cases hpost

/-- C18, witness: watermark 5 and the page `[#7, #5, #3, #1]`. -/
theorem C18_watermark_values_witness :
    (∀ xs : List Nat, xs ≠ [] → ∃ m ∈ xs, mathMax xs = JsNum.fin m) ∧
    ∃ e, (getRepositories (checkAllRepositories (demoEnv [7, 5, 3, 1])
        (demoWorld (some (JsNum.fin 5)))))[0]? = some e ∧
      (e.lastIssueNumber = (mkRepo "octo" "demo" (some (JsNum.fin 5))).lastIssueNumber ∨
        ∃ k response x, (demoEnv [7, 5, 3, 1]).fetch 0 k = .ok response ∧ x ∈ response.body ∧
          x.pull_request = false ∧ e.lastIssueNumber = some (JsNum.fin x.number)) ∧
      ((mkRepo "octo" "demo" (some (JsNum.fin 5))).lastIssueNumber ≠ some JsNum.negInf →
        e.lastIssueNumber ≠ some JsNum.negInf) :=
  C18_watermark_values (demoEnv [7, 5, 3, 1]) (demoWorld (some (JsNum.fin 5))) 0
    (mkRepo "octo" "demo" (some (JsNum.fin 5))) (by decide) rfl

end GitBell

